import Mathlib

/-!
# Work partitioning in `jit_avx512_common_convolution.hpp`

A shallow embedding of the planning code of the AVX-512 convolution
primitives (forward, backward-data, backward-weights descriptors) and the
properties its specification states about it.

C++ `int` values that cannot leave the range of the type are embedded as
`Nat`: thread counts, axis extents, flat indices inside a thread's range and
coordinates are non-negative and bounded by the work amount, and
`end - start` is only evaluated under the loop guard `start < end`. The one
`int` that is computed by multiplication, `work_amount`, is embedded as the
`Int` a 32-bit variable holds, with the wrap made explicit.
-/

namespace SparseTrain

/-! ## Balanced range partitioner -/

/-- Modelled from the spec: `balance211` is defined in the library's threading
utilities, which are not part of the convolution header; only its calls
`balance211(work_amount, nthr, ithr, start, end)` are. Following the
partitioner contract, thread `ithr` receives a range of length
`⌊work_amount / nthr⌋`, one longer for the first `work_amount mod nthr`
threads, and the ranges are laid out in thread order from `0`. The result is
the pair `(start, end)` written through the two reference arguments. -/
def balance211 (work_amount nthr ithr : Nat) : Nat × Nat :=
  let q := work_amount / nthr
  let r := work_amount % nthr
  let n_my := if ithr < r then q + 1 else q
  let n_start := ithr * q + min ithr r
  (n_start, n_start + n_my)

/-! ## Multi-axis index mapper -/

/-- The coordinate locals `g, mbb, oh, ocb, mb_s` of the forward planning body
(`g, mbb, ih, icb, mb_s` in the backward-data one). -/
structure Coord where
  g : Nat
  mbb : Nat
  oh : Nat
  ocb : Nat
  mb_s : Nat
  deriving DecidableEq, Repr

/-- The axis extents handed to the index mapper next to the coordinates:
`j.ngroups, j.nb_mb, j.oh, oc_iters, j.mb_block` in the forward constructor,
`j.ngroups, j.nb_mb, j.ih, ic_iters, j.mb_block` in the backward-data one. -/
structure Extents where
  ngroups : Nat
  nb_mb : Nat
  oh : Nat
  oc_iters : Nat
  mb_block : Nat
  deriving DecidableEq, Repr

/-- All five axis extents are positive. -/
def Extents.positive (e : Extents) : Prop :=
  0 < e.ngroups ∧ 0 < e.nb_mb ∧ 0 < e.oh ∧ 0 < e.oc_iters ∧ 0 < e.mb_block

instance (e : Extents) : Decidable e.positive := by
  unfold Extents.positive
  infer_instance

/-- Size of the iteration space spanned by the extents. -/
def Extents.size (e : Extents) : Nat :=
  e.ngroups * e.nb_mb * e.oh * e.oc_iters * e.mb_block

/-- Row-major re-encoding of a coordinate, `g` outermost and `mb_s` innermost. -/
def encode (c : Coord) (e : Extents) : Nat :=
  (((c.g * e.nb_mb + c.mbb) * e.oh + c.oh) * e.oc_iters + c.ocb) * e.mb_block + c.mb_s

/-- Modelled from the spec: one axis of `nd_iterator_init`, which is defined in
the library's utilities and not in the convolution header. Standard
mixed-radix decoding by integer division: the coordinate of the axis is the
remainder by its extent, the quotient goes on to the next outer axis. The
result is `(quotient, coordinate)`. -/
def nd_iterator_init_axis (start X : Nat) : Nat × Nat :=
  (start / X, start % X)

/-- Modelled from the spec: `nd_iterator_init(start, g, ngroups, mbb, nb_mb,
oh, OH, ocb, oc_iters, mb_s, mb_block)` of the library's utilities (not in the
convolution header): successive integer division by the axis extents from the
innermost axis (`mb_s`) to the outermost (`g`). -/
def nd_iterator_init (start : Nat) (e : Extents) : Coord :=
  let a4 := nd_iterator_init_axis start e.mb_block
  let a3 := nd_iterator_init_axis a4.1 e.oc_iters
  let a2 := nd_iterator_init_axis a3.1 e.oh
  let a1 := nd_iterator_init_axis a2.1 e.nb_mb
  let a0 := nd_iterator_init_axis a1.1 e.ngroups
  { g := a0.2, mbb := a1.2, oh := a2.2, ocb := a3.2, mb_s := a4.2 }

/-- Modelled from the spec: the innermost axis of `nd_iterator_jump` (library
utilities, not in the convolution header). The jump consumes what is left of
the thread's range, capped at what is left of the innermost axis: when the
axis is exhausted its coordinate is reset to `0` and a carry goes to the next
axis, otherwise the coordinate moves by the consumed amount. The result is
`(new start, new coordinate, carry)`. -/
def nd_iterator_jump_last (cur end_ x X : Nat) : Nat × Nat × Bool :=
  let max_jump := end_ - cur
  let dim_jump := X - x
  if dim_jump ≤ max_jump then (cur + dim_jump, 0, true)
  else (cur + max_jump, x + max_jump, false)

/-- Modelled from the spec: an outer axis of `nd_iterator_jump`: on a carry
from the inner axes the coordinate is incremented modulo its extent, and
carries on when it wraps to `0`. The result is `(new coordinate, carry)`. -/
def nd_iterator_jump_axis (carry : Bool) (x X : Nat) : Nat × Bool :=
  if carry then ((x + 1) % X, (x + 1) % X == 0) else (x, false)

/-- Modelled from the spec: `nd_iterator_jump(start, end, g, ngroups, mbb,
nb_mb, oh, OH, ocb, oc_iters, mb_s, mb_block)` of the library's utilities (not
in the convolution header): advances `start` by the consumed amount and the
coordinate with it, carrying from the innermost axis outwards. The result is
the updated `start` and coordinate. -/
def nd_iterator_jump (start end_ : Nat) (c : Coord) (e : Extents) : Nat × Coord :=
  let a4 := nd_iterator_jump_last start end_ c.mb_s e.mb_block
  let a3 := nd_iterator_jump_axis a4.2.2 c.ocb e.oc_iters
  let a2 := nd_iterator_jump_axis a3.2 c.oh e.oh
  let a1 := nd_iterator_jump_axis a2.2 c.mbb e.nb_mb
  let a0 := nd_iterator_jump_axis a1.2 c.g e.ngroups
  (a4.1, { g := a0.1, mbb := a1.1, oh := a2.1, ocb := a3.1, mb_s := a4.2.1 })

/-! ## Planning loops of the forward and backward-data constructors -/

/-- Modelled from the spec: `jit_conv_conf_t` is declared in the kernel
headers, not in the convolution header. These are the fields of the job
configuration that the constructors read: group count, minibatch blocking,
spatial extents, channel block counts and buffering widths, dilation, and the
padded and real output-channel counts. -/
structure jit_conv_conf_t where
  ngroups : Nat
  nb_mb : Nat
  mb_block : Nat
  oh : Nat
  ih : Nat
  nb_oc : Nat
  nb_ic : Nat
  oc_buffs : Nat
  ic_buffs : Nat
  dilate_w : Nat
  oc : Nat
  oc_without_padding : Nat
  deriving DecidableEq, Repr

/-- The record `param_t`: each field is an `int[2]`, index `0` the "current"
and index `1` the "look-ahead" snapshot. The backward-data `param_t` is the
same record with `ih`, `icb` for `oh`, `ocb`. -/
structure param_t where
  g : Nat × Nat
  mbb : Nat × Nat
  oh : Nat × Nat
  ocb : Nat × Nat
  mb : Nat × Nat
  deriving DecidableEq, Repr

/-- State of one thread inside the planning body: the locals `start` and the
coordinate, the thread's `param_t`, and (ghost) the chunks recorded so far,
one `(start, p.mb[1] - mb_s)` per iteration, taken at the head of the
iteration. -/
structure plan_state where
  start : Nat
  c : Coord
  p : param_t
  chunks : List (Nat × Nat)
  deriving DecidableEq, Repr

/-- One iteration of `while (start < end)`: store the look-ahead snapshot,
compute `p.mb[1]`, jump. -/
def plan_iter (e : Extents) (end_ : Nat) (s : plan_state) : plan_state :=
  let work_rem := end_ - s.start
  let mb1 := if s.c.mb_s + work_rem > e.mb_block then e.mb_block else s.c.mb_s + work_rem
  let p : param_t :=
    { g := (s.p.g.1, s.c.g), mbb := (s.p.mbb.1, s.c.mbb), oh := (s.p.oh.1, s.c.oh),
      ocb := (s.p.ocb.1, s.c.ocb), mb := (s.p.mb.1, mb1) }
  let jmp := nd_iterator_jump s.start end_ s.c e
  { start := jmp.1, c := jmp.2, p := p, chunks := s.chunks ++ [(s.start, mb1 - s.c.mb_s)] }

/-- The loop `while (start < end) { ... }` run with a bound on the number of
iterations; `none` when the bound is reached with `start < end` still true. -/
def plan_loop (e : Extents) (end_ : Nat) : Nat → plan_state → Option plan_state
  | 0, s => if s.start < end_ then none else some s
  | fuel + 1, s =>
    if s.start < end_ then plan_loop e end_ fuel (plan_iter e end_ s) else some s

/-- The body the constructors hand to `parallel`, for thread `ithr` of `nthr`:
`balance211`, `nd_iterator_init`, both snapshots set to the decoded
coordinate, then the loop. -/
def plan_thread (e : Extents) (work_amount nthr ithr fuel : Nat) : Option plan_state :=
  let se := balance211 work_amount nthr ithr
  let c := nd_iterator_init se.1 e
  let p : param_t :=
    { g := (c.g, c.g), mbb := (c.mbb, c.mbb), oh := (c.oh, c.oh), ocb := (c.ocb, c.ocb),
      mb := (c.mb_s, c.mb_s) }
  plan_loop e se.2 fuel { start := se.1, c := c, p := p, chunks := [] }

/-- Forward constructor: `step` and `oc_iters`. -/
def fwd_oc_iters (j : jit_conv_conf_t) : Nat :=
  let step := if j.dilate_w = 0 then j.oc_buffs else 1
  j.nb_oc / step

/-- The value a 32-bit two's-complement `int` holds when the exact result of
the arithmetic that computes it is `n`: `n` modulo `2^32`, read as a signed
number in `[-2^31, 2^31)`. A product computed factor by factor in `int` ends
with the wrap of the exact product. -/
def wrap_int32 (n : Nat) : Int :=
  if n % 4294967296 < 2147483648 then ((n % 4294967296 : Nat) : Int)
  else ((n % 4294967296 : Nat) : Int) - 4294967296

/-- Forward constructor: `int work_amount = j.ngroups * j.oh * j.nb_mb *
j.mb_block * oc_iters;`, the 32-bit value. -/
def fwd_work_amount (j : jit_conv_conf_t) : Int :=
  wrap_int32 (j.ngroups * j.oh * j.nb_mb * j.mb_block * fwd_oc_iters j)

/-- Forward constructor: the extents passed to the index mapper. -/
def fwd_extents (j : jit_conv_conf_t) : Extents :=
  { ngroups := j.ngroups, nb_mb := j.nb_mb, oh := j.oh, oc_iters := fwd_oc_iters j,
    mb_block := j.mb_block }

/-- Forward constructor: the planning body of thread `ithr`. A negative
`work_amount` is outside the contract of `balance211` (`work_amount ≥ 0`), so
the model has no result for it: `none`, as when the loop does not end within
the allowed iterations. -/
def fwd_plan (j : jit_conv_conf_t) (nthr ithr fuel : Nat) : Option plan_state :=
  if 0 ≤ fwd_work_amount j then
    plan_thread (fwd_extents j) (fwd_work_amount j).toNat nthr ithr fuel
  else none

/-- Backward-data constructor: `ic_iters`. -/
def bwd_data_ic_iters (j : jit_conv_conf_t) : Nat :=
  j.nb_ic / j.ic_buffs

/-- Backward-data constructor: `int work_amount = j.ngroups * j.ih * j.nb_mb *
j.mb_block * ic_iters;`, the 32-bit value. -/
def bwd_data_work_amount (j : jit_conv_conf_t) : Int :=
  wrap_int32 (j.ngroups * j.ih * j.nb_mb * j.mb_block * bwd_data_ic_iters j)

/-- Backward-data constructor: the extents passed to the index mapper. -/
def bwd_data_extents (j : jit_conv_conf_t) : Extents :=
  { ngroups := j.ngroups, nb_mb := j.nb_mb, oh := j.ih, oc_iters := bwd_data_ic_iters j,
    mb_block := j.mb_block }

/-- Backward-data constructor: the planning body of thread `ithr`; `none` for
a negative `work_amount`, as in the forward constructor. -/
def bwd_data_plan (j : jit_conv_conf_t) (nthr ithr fuel : Nat) : Option plan_state :=
  if 0 ≤ bwd_data_work_amount j then
    plan_thread (bwd_data_extents j) (bwd_data_work_amount j).toNat nthr ithr fuel
  else none

/-- The flat indices of a list of chunks `(start, length)`, in order. -/
def chunk_indices (chunks : List (Nat × Nat)) : List Nat :=
  chunks.flatMap (fun ch => List.range' ch.1 ch.2)

/-- Modelled from the spec: `parallel(nthr, body)` of the library's threading
layer (not in the convolution header) is a fork-join region that runs
`body(ithr, nthr)` once for every `ithr` in `[0, nthr)`. These are the chunks
of all its threads, thread by thread and iteration by iteration. -/
def all_chunks (plan : Nat → Option plan_state) (nthr : Nat) : List (Nat × Nat) :=
  (List.range nthr).flatMap (fun ithr =>
    match plan ithr with
    | some s => s.chunks
    | none => [])

/-- The walk of the planning loops seen on the index mapper alone: one pass of
`while (start < end) nd_iterator_jump(start, end, ...)` on the pair of the
local `start` and the coordinate. -/
def jump_step (e : Extents) (end_ : Nat) (sc : Nat × Coord) : Nat × Coord :=
  if sc.1 < end_ then nd_iterator_jump sc.1 end_ sc.2 e else sc

/-- The pair `(start, coordinate)` after `k` passes of the walk that begins
with `nd_iterator_init` at `start`. -/
def jump_walk (e : Extents) (end_ : Nat) (k : Nat) (start : Nat) : Nat × Coord :=
  (jump_step e end_)^[k] (start, nd_iterator_init start e)

/-! ## Padded bias of the forward constructor -/

/-- The loop `for (int oc = lo; oc < hi; ++oc) padded_bias_[oc] = 0;`. -/
def zero_tail {α : Type} [Zero α] (padded_bias_ : List α) (lo hi : Nat) : List α :=
  (List.range' lo (hi - lo)).foldl (fun buf oc => buf.set oc 0) padded_bias_

/-- The padded-bias part of the forward constructor; the result is the member
`padded_bias_`, `none` for `nullptr`. `want_padded_bias` is the value of
`conf_.want_padded_bias()` (a method of the descriptor base class, outside
this header), `fresh` is the storage that
`malloc(sizeof(dst_data_t) * j.oc, 64)` returns, `j.oc` elements of
unspecified content, and `inputs_bias` is the caller's bias, which reaches the
constructor inside `inputs` and is not read by it. -/
def fwd_ctor_padded_bias {α : Type} [Zero α] (want_padded_bias : Bool) (j : jit_conv_conf_t)
    (fresh : List α) (_inputs_bias : List α) : Option (List α) :=
  if want_padded_bias then
    some (zero_tail fresh j.oc_without_padding j.oc)
  else
    none

/-! ## Primitive descriptors -/

/-- Modelled from the spec: the enumeration `data_type_t` of element data
types is declared in the library's type headers, not here. -/
inductive data_type_t where
  | undef | f32 | s32 | s16 | s8 | u8
  deriving DecidableEq, Repr

/-- Modelled from the spec: the enumeration `memory_format_t` of tensor block
layouts is declared in the library's type headers, not here. The
constructors are the values this header names; `other` stands for the
remaining, concrete, formats. -/
inductive memory_format_t where
  | any
  | nChw16c | nCdhw16c
  | OIhw16o16i | gOIhw16o16i
  | OIdhw16o16i | gOIdhw16o16i
  | OIhw8o16i2o | gOIhw8o16i2o
  | other (tag : Nat)
  deriving DecidableEq, Repr

/-- Modelled from the spec: the enumeration `prop_kind_t` (library type
headers). -/
inductive prop_kind_t where
  | undef | forward_training | forward_inference | backward | backward_data
  | backward_weights | backward_bias
  deriving DecidableEq, Repr

/-- Modelled from the spec: the enumeration `alg_kind_t` (library type
headers); `other` stands for the algorithms this header does not name. -/
inductive alg_kind_t where
  | convolution_direct
  | other (tag : Nat)
  deriving DecidableEq, Repr

/-- Modelled from the spec: the enumeration `status_t` (library type
headers). -/
inductive status_t where
  | success | out_of_memory | try_again | invalid_arguments | not_ready | unimplemented
  | iterator_ends | runtime_error | not_required
  deriving DecidableEq, Repr

/-- Modelled from the spec: the fields of `memory_desc_t` (library type
headers) that this header reads. -/
structure memory_desc_t where
  ndims : Nat
  data_type : data_type_t
  format : memory_format_t
  deriving DecidableEq, Repr

/-- Modelled from the spec: the fields of `convolution_desc_t` (library type
headers) that this header reads. -/
structure convolution_desc_t where
  prop_kind : prop_kind_t
  alg_kind : alg_kind_t
  src_desc : memory_desc_t
  diff_src_desc : memory_desc_t
  weights_desc : memory_desc_t
  diff_weights_desc : memory_desc_t
  bias_desc : memory_desc_t
  dst_desc : memory_desc_t
  diff_dst_desc : memory_desc_t
  deriving DecidableEq, Repr

/-- What `_jit_avx512_common_convolution_fwd_t::pd_t::init` reads of its
object: the operator descriptor `cdesc_()`, and the values of the base-class
queries `has_zero_dim_memory()`, `with_bias()` and `negative_slope() != 0.`. -/
structure fwd_pd_t where
  cdesc_ : convolution_desc_t
  has_zero_dim_memory : Bool
  with_bias : Bool
  negative_slope_ne_zero : Bool
  deriving DecidableEq, Repr

/-- `_jit_avx512_common_convolution_fwd_t<with_relu, src_type, wei_type,
dst_type>::pd_t::init`. `init_conf` is the status the forward kernel's
`init_conf` returns for this descriptor. -/
def fwd_pd_init (with_relu : Bool) (src_type wei_type dst_type : data_type_t)
    (init_conf : fwd_pd_t → status_t) (pd : fwd_pd_t) : status_t :=
  let ok := true
    && (pd.cdesc_.prop_kind == prop_kind_t.forward_training
        || pd.cdesc_.prop_kind == prop_kind_t.forward_inference)
    && pd.cdesc_.alg_kind == alg_kind_t.convolution_direct
    && !pd.has_zero_dim_memory
    && pd.cdesc_.src_desc.data_type == src_type
    && pd.cdesc_.weights_desc.data_type == wei_type
    && pd.cdesc_.dst_desc.data_type == dst_type
    && (!pd.with_bias || dst_type == pd.cdesc_.bias_desc.data_type)
    && !(with_relu && pd.negative_slope_ne_zero
          && dst_type == data_type_t.s32
          && src_type == data_type_t.s16
          && wei_type == data_type_t.s16)
  if !ok then status_t.unimplemented else init_conf pd

/-- What `jit_avx512_common_convolution_bwd_data_t::pd_t` reads and writes of
its object: the operator descriptor `desc()`, the three memory descriptors
`diff_src_pd_`, `weights_pd_`, `diff_dst_pd_`, and the values of the
base-class queries `has_zero_dim_memory()` and `with_groups()`. -/
structure bwd_data_pd_t where
  desc : convolution_desc_t
  diff_src_pd_ : memory_desc_t
  weights_pd_ : memory_desc_t
  diff_dst_pd_ : memory_desc_t
  has_zero_dim_memory : Bool
  with_groups : Bool
  deriving DecidableEq, Repr

/-- `jit_avx512_common_convolution_bwd_data_t::pd_t::ndims`. -/
def bwd_data_pd_t.ndims (pd : bwd_data_pd_t) : Nat :=
  pd.desc.diff_src_desc.ndims

/-- `jit_avx512_common_convolution_bwd_data_t::pd_t::src_format`. -/
def bwd_data_pd_t.src_format (pd : bwd_data_pd_t) : memory_format_t :=
  if pd.ndims = 4 then memory_format_t.nChw16c else memory_format_t.nCdhw16c

/-- `jit_avx512_common_convolution_bwd_data_t<diff_dst_type, wei_type,
diff_src_type>::pd_t::wei_format`. -/
def bwd_data_pd_t.wei_format (diff_dst_type wei_type diff_src_type : data_type_t)
    (pd : bwd_data_pd_t) : memory_format_t :=
  if diff_dst_type = data_type_t.s16 ∧ diff_src_type = data_type_t.s32
      ∧ wei_type = data_type_t.s16 then
    if pd.with_groups then memory_format_t.gOIhw8o16i2o else memory_format_t.OIhw8o16i2o
  else
    if pd.ndims = 4 then
      if pd.with_groups then memory_format_t.gOIhw16o16i else memory_format_t.OIhw16o16i
    else
      if pd.with_groups then memory_format_t.gOIdhw16o16i else memory_format_t.OIdhw16o16i

/-- `jit_avx512_common_convolution_bwd_data_t::pd_t::set_default_params`, with
the `CHECK` macro spelled out (return the status at once unless it is
`success`). `set_format` is the member function of the memory descriptors
(declared outside this header): it returns a status and leaves the
descriptor in a new state. -/
def bwd_data_pd_t.set_default_params (diff_dst_type wei_type diff_src_type : data_type_t)
    (set_format : memory_desc_t → memory_format_t → status_t × memory_desc_t)
    (pd : bwd_data_pd_t) : status_t × bwd_data_pd_t :=
  let r1 :=
    if pd.diff_src_pd_.format = memory_format_t.any then
      set_format pd.diff_src_pd_ pd.src_format
    else (status_t.success, pd.diff_src_pd_)
  let pd1 := { pd with diff_src_pd_ := r1.2 }
  if r1.1 ≠ status_t.success then (r1.1, pd1) else
  let r2 :=
    if pd1.diff_dst_pd_.format = memory_format_t.any then
      set_format pd1.diff_dst_pd_ pd1.src_format
    else (status_t.success, pd1.diff_dst_pd_)
  let pd2 := { pd1 with diff_dst_pd_ := r2.2 }
  if r2.1 ≠ status_t.success then (r2.1, pd2) else
  let r3 :=
    if pd2.weights_pd_.format = memory_format_t.any then
      set_format pd2.weights_pd_ (pd2.wei_format diff_dst_type wei_type diff_src_type)
    else (status_t.success, pd2.weights_pd_)
  let pd3 := { pd2 with weights_pd_ := r3.2 }
  if r3.1 ≠ status_t.success then (r3.1, pd3) else
  (status_t.success, pd3)

/-- `jit_avx512_common_convolution_bwd_data_t<diff_dst_type, wei_type,
diff_src_type>::pd_t::init`: the returned status and the descriptor as
`set_default_params` leaves it. `init_conf` is the status the backward-data
kernel's `init_conf` returns for the descriptor it is handed. -/
def bwd_data_pd_init (diff_dst_type wei_type diff_src_type : data_type_t)
    (set_format : memory_desc_t → memory_format_t → status_t × memory_desc_t)
    (init_conf : bwd_data_pd_t → status_t) (pd : bwd_data_pd_t) : status_t × bwd_data_pd_t :=
  let r := pd.set_default_params diff_dst_type wei_type diff_src_type set_format
  let ok := true
    && r.1 == status_t.success
    && r.2.desc.prop_kind == prop_kind_t.backward_data
    && !r.2.has_zero_dim_memory
    && r.2.desc.alg_kind == alg_kind_t.convolution_direct
    && r.2.desc.diff_dst_desc.data_type == diff_dst_type
    && r.2.desc.weights_desc.data_type == wei_type
    && r.2.desc.diff_src_desc.data_type == diff_src_type
  if !ok then (status_t.unimplemented, r.2) else (init_conf r.2, r.2)

/-- What `jit_avx512_common_convolution_bwd_weights_t::pd_t` reads and writes
of its object: the operator descriptor `desc()`, the value of the base-class
query `has_zero_dim_memory()` (these two are all that `init` reads), the
three memory descriptors `src_pd_`, `diff_weights_pd_`, `diff_dst_pd_`, and
the value of the base-class query `with_groups()`. -/
structure bwd_weights_pd_t where
  desc : convolution_desc_t
  has_zero_dim_memory : Bool
  src_pd_ : memory_desc_t
  diff_weights_pd_ : memory_desc_t
  diff_dst_pd_ : memory_desc_t
  with_groups : Bool
  deriving DecidableEq, Repr

/-- `jit_avx512_common_convolution_bwd_weights_t<src_type, diff_dst_type,
diff_weights_type>::pd_t::init`. `init_conf` is the status the
backward-weights kernel's `init_conf` returns for this descriptor. -/
def bwd_weights_pd_init (src_type diff_dst_type diff_weights_type : data_type_t)
    (init_conf : bwd_weights_pd_t → status_t) (pd : bwd_weights_pd_t) : status_t :=
  let ok := true
    && pd.desc.prop_kind == prop_kind_t.backward_weights
    && pd.desc.alg_kind == alg_kind_t.convolution_direct
    && !pd.has_zero_dim_memory
    && pd.desc.src_desc.data_type == src_type
    && pd.desc.diff_dst_desc.data_type == diff_dst_type
    && pd.desc.diff_weights_desc.data_type == diff_weights_type
  if !ok then status_t.unimplemented else init_conf pd

/-- The two block layouts of weights the specification distinguishes. -/
inductive block_layout_t where
  | interleaved_8o16i2o
  | flat_16o16i
  deriving DecidableEq, Repr

/-- The block layout a weights format belongs to, read off its name. -/
def memory_format_t.block_layout : memory_format_t → Option block_layout_t
  | .OIhw8o16i2o | .gOIhw8o16i2o => some block_layout_t.interleaved_8o16i2o
  | .OIhw16o16i | .gOIhw16o16i | .OIdhw16o16i | .gOIdhw16o16i =>
    some block_layout_t.flat_16o16i
  | _ => none

/-- Whether a format is a depth-extended (`dhw`) one, read off its name. -/
def memory_format_t.depth_extended : memory_format_t → Bool
  | .nCdhw16c | .OIdhw16o16i | .gOIdhw16o16i => true
  | _ => false

/-- The number of dimensions of the tensors a format lays out, read off its
name (`g` adds the group dimension, `d` the depth). -/
def memory_format_t.rank : memory_format_t → Option Nat
  | .nChw16c | .OIhw16o16i | .OIhw8o16i2o => some 4
  | .nCdhw16c | .gOIhw16o16i | .gOIhw8o16i2o | .OIdhw16o16i => some 5
  | .gOIdhw16o16i => some 6
  | _ => none

/-- A `set_format` that accepts a format only for a descriptor of the rank the
format lays out, and answers `invalid_arguments` otherwise, leaving the
descriptor as it was. -/
def set_format_by_rank (md : memory_desc_t) (fmt : memory_format_t) :
    status_t × memory_desc_t :=
  if fmt.rank = some md.ndims then (status_t.success, { md with format := fmt })
  else (status_t.invalid_arguments, md)

/-- The mixed narrow/wide integer combination of the backward-data template
arguments. -/
def mixed_s16_s32 (diff_dst_type wei_type diff_src_type : data_type_t) : Prop :=
  diff_dst_type = data_type_t.s16 ∧ wei_type = data_type_t.s16
    ∧ diff_src_type = data_type_t.s32

instance (a b c : data_type_t) : Decidable (mixed_s16_s32 a b c) := by
  unfold mixed_s16_s32
  infer_instance

/-- The rejection conditions of the forward `init`: wrong propagation kind,
wrong algorithm, a zero dimension, a tensor data type other than the
template's, a bias of another type than the destination, or a fused ReLU
with non-zero negative slope on s16/s16/s32. -/
def fwd_rejected (with_relu : Bool) (src_type wei_type dst_type : data_type_t)
    (pd : fwd_pd_t) : Prop :=
  ¬ (pd.cdesc_.prop_kind = prop_kind_t.forward_training
      ∨ pd.cdesc_.prop_kind = prop_kind_t.forward_inference)
  ∨ pd.cdesc_.alg_kind ≠ alg_kind_t.convolution_direct
  ∨ pd.has_zero_dim_memory = true
  ∨ pd.cdesc_.src_desc.data_type ≠ src_type
  ∨ pd.cdesc_.weights_desc.data_type ≠ wei_type
  ∨ pd.cdesc_.dst_desc.data_type ≠ dst_type
  ∨ (pd.with_bias = true ∧ pd.cdesc_.bias_desc.data_type ≠ dst_type)
  ∨ (with_relu = true ∧ pd.negative_slope_ne_zero = true ∧ dst_type = data_type_t.s32
      ∧ src_type = data_type_t.s16 ∧ wei_type = data_type_t.s16)

/-- The rejection conditions of the backward-data `init` that come from the
operator descriptor: wrong propagation kind, wrong algorithm, a zero
dimension, a tensor data type other than the template's. -/
def bwd_data_rejected (diff_dst_type wei_type diff_src_type : data_type_t)
    (pd : bwd_data_pd_t) : Prop :=
  pd.desc.prop_kind ≠ prop_kind_t.backward_data
  ∨ pd.desc.alg_kind ≠ alg_kind_t.convolution_direct
  ∨ pd.has_zero_dim_memory = true
  ∨ pd.desc.diff_dst_desc.data_type ≠ diff_dst_type
  ∨ pd.desc.weights_desc.data_type ≠ wei_type
  ∨ pd.desc.diff_src_desc.data_type ≠ diff_src_type

/-- The rejection conditions of the backward-weights `init`. -/
def bwd_weights_rejected (src_type diff_dst_type diff_weights_type : data_type_t)
    (pd : bwd_weights_pd_t) : Prop :=
  pd.desc.prop_kind ≠ prop_kind_t.backward_weights
  ∨ pd.desc.alg_kind ≠ alg_kind_t.convolution_direct
  ∨ pd.has_zero_dim_memory = true
  ∨ pd.desc.src_desc.data_type ≠ src_type
  ∨ pd.desc.diff_dst_desc.data_type ≠ diff_dst_type
  ∨ pd.desc.diff_weights_desc.data_type ≠ diff_weights_type

instance (r : Bool) (a b c : data_type_t) (pd : fwd_pd_t) : Decidable (fwd_rejected r a b c pd) := by
  unfold fwd_rejected
  infer_instance

instance (a b c : data_type_t) (pd : bwd_data_pd_t) : Decidable (bwd_data_rejected a b c pd) := by
  unfold bwd_data_rejected
  infer_instance

instance (a b c : data_type_t) (pd : bwd_weights_pd_t) :
    Decidable (bwd_weights_rejected a b c pd) := by
  unfold bwd_weights_rejected
  infer_instance

/-- A 5-D backward-data problem on the mixed integer types with no layout
chosen yet: every memory descriptor has format `any`. -/
def bwd_data_s16_5d : bwd_data_pd_t :=
  { desc :=
      { prop_kind := prop_kind_t.backward_data
        alg_kind := alg_kind_t.convolution_direct
        src_desc := ⟨5, data_type_t.s32, memory_format_t.any⟩
        diff_src_desc := ⟨5, data_type_t.s32, memory_format_t.any⟩
        weights_desc := ⟨5, data_type_t.s16, memory_format_t.any⟩
        diff_weights_desc := ⟨5, data_type_t.s16, memory_format_t.any⟩
        bias_desc := ⟨0, data_type_t.undef, memory_format_t.any⟩
        dst_desc := ⟨5, data_type_t.s16, memory_format_t.any⟩
        diff_dst_desc := ⟨5, data_type_t.s16, memory_format_t.any⟩ }
    diff_src_pd_ := ⟨5, data_type_t.s32, memory_format_t.any⟩
    weights_pd_ := ⟨5, data_type_t.s16, memory_format_t.any⟩
    diff_dst_pd_ := ⟨5, data_type_t.s16, memory_format_t.any⟩
    has_zero_dim_memory := false
    with_groups := false }

/-- A 4-D single-precision operator descriptor of the given propagation kind
with no layout chosen yet. -/
def conv_desc_f32 (prop_kind : prop_kind_t) : convolution_desc_t :=
  { prop_kind := prop_kind
    alg_kind := alg_kind_t.convolution_direct
    src_desc := ⟨4, data_type_t.f32, memory_format_t.any⟩
    diff_src_desc := ⟨4, data_type_t.f32, memory_format_t.any⟩
    weights_desc := ⟨4, data_type_t.f32, memory_format_t.any⟩
    diff_weights_desc := ⟨4, data_type_t.f32, memory_format_t.any⟩
    bias_desc := ⟨1, data_type_t.f32, memory_format_t.any⟩
    dst_desc := ⟨4, data_type_t.f32, memory_format_t.any⟩
    diff_dst_desc := ⟨4, data_type_t.f32, memory_format_t.any⟩ }

/-- A 4-D single-precision backward-data problem with no layout chosen yet. -/
def bwd_data_f32_4d : bwd_data_pd_t :=
  { desc := conv_desc_f32 prop_kind_t.backward_data
    diff_src_pd_ := ⟨4, data_type_t.f32, memory_format_t.any⟩
    weights_pd_ := ⟨4, data_type_t.f32, memory_format_t.any⟩
    diff_dst_pd_ := ⟨4, data_type_t.f32, memory_format_t.any⟩
    has_zero_dim_memory := false
    with_groups := false }

/-- A 4-D single-precision forward problem with a bias. -/
def fwd_f32_4d : fwd_pd_t :=
  { cdesc_ := conv_desc_f32 prop_kind_t.forward_training
    has_zero_dim_memory := false
    with_bias := true
    negative_slope_ne_zero := false }

/-- A 4-D single-precision backward-weights problem. -/
def bwd_weights_f32_4d : bwd_weights_pd_t :=
  { desc := conv_desc_f32 prop_kind_t.backward_weights
    has_zero_dim_memory := false
    src_pd_ := ⟨4, data_type_t.f32, memory_format_t.any⟩
    diff_weights_pd_ := ⟨4, data_type_t.f32, memory_format_t.OIhw16o16i⟩
    diff_dst_pd_ := ⟨4, data_type_t.f32, memory_format_t.any⟩
    with_groups := false }

/-- A job configuration with two padded output channels of which one is real. -/
def jcp_oc2 : jit_conv_conf_t :=
  { ngroups := 1, nb_mb := 1, mb_block := 1, oh := 1, ih := 1, nb_oc := 1, nb_ic := 1,
    oc_buffs := 1, ic_buffs := 1, dilate_w := 0, oc := 2, oc_without_padding := 1 }

/-- The job configuration of the specification's coverage example:
`G = 1, oh = 4, nb_mb = 2, mb_block = 2, oc_iters = 3`. -/
def jcp_example : jit_conv_conf_t :=
  { ngroups := 1, nb_mb := 2, mb_block := 2, oh := 4, ih := 4, nb_oc := 3, nb_ic := 3,
    oc_buffs := 1, ic_buffs := 1, dilate_w := 0, oc := 48, oc_without_padding := 48 }

/-! ## Worker count, channel iterations and snapshots of the planning loops -/

/-- The worker count of the forward and backward-data constructors,
`int nthr = mkldnn_get_max_threads() / 2;`, as a function of the value the
ambient query `mkldnn_get_max_threads()` returns. -/
def planning_nthr (mkldnn_get_max_threads : Nat) : Nat :=
  mkldnn_get_max_threads / 2

/-- The array `params_ = new param_t[nthr]` after the parallel region: entry
`ithr` is the `param_t` the planning body of thread `ithr` leaves (`none`
when its loop did not end within the allowed iterations). -/
def planned_params (plan : Nat → Option plan_state) (nthr : Nat) : List (Option param_t) :=
  (List.range nthr).map (fun ithr => (plan ithr).map (fun s => s.p))

/-- Forward constructor: `step`. -/
def fwd_step (j : jit_conv_conf_t) : Nat :=
  if j.dilate_w = 0 then j.oc_buffs else 1

/-- The data-model invariant the specification states for a job
configuration: all block counts and block sizes are positive and
`oc_without_padding ≤ oc`. -/
def jit_conv_conf_t.valid (j : jit_conv_conf_t) : Prop :=
  0 < j.ngroups ∧ 0 < j.nb_mb ∧ 0 < j.mb_block ∧ 0 < j.oh ∧ 0 < j.ih ∧ 0 < j.nb_oc ∧
  0 < j.nb_ic ∧ 0 < j.oc_buffs ∧ 0 < j.ic_buffs ∧ j.oc_without_padding ≤ j.oc

instance (j : jit_conv_conf_t) : Decidable j.valid := by
  unfold jit_conv_conf_t.valid
  infer_instance

/-- A valid job configuration whose channel block counts are not multiples of
the buffering widths: three blocks, buffered two at a time. -/
def jcp_odd_blocks : jit_conv_conf_t :=
  { ngroups := 1, nb_mb := 1, mb_block := 1, oh := 1, ih := 1, nb_oc := 3, nb_ic := 3,
    oc_buffs := 2, ic_buffs := 2, dilate_w := 0, oc := 48, oc_without_padding := 48 }

/-- The "current" snapshot of a `param_t`, index `0` of every field, as a
coordinate. -/
def param_t.current (p : param_t) : Coord :=
  { g := p.g.1, mbb := p.mbb.1, oh := p.oh.1, ocb := p.ocb.1, mb_s := p.mb.1 }

/-- The "look-ahead" snapshot of a `param_t`, index `1` of every field; the
last component is `mb[1]`, an exclusive end offset. -/
def param_t.lookahead (p : param_t) : Coord :=
  { g := p.g.2, mbb := p.mbb.2, oh := p.oh.2, ocb := p.ocb.2, mb_s := p.mb.2 }

/-- The look-ahead snapshot describes the flat index `last`: its first four
components are those of the decoding of `last`, and `mb[1]` is one past the
minibatch offset of `last`. -/
def lookahead_of (e : Extents) (p : param_t) (last : Nat) : Prop :=
  p.g.2 = (nd_iterator_init last e).g ∧ p.mbb.2 = (nd_iterator_init last e).mbb ∧
  p.oh.2 = (nd_iterator_init last e).oh ∧ p.ocb.2 = (nd_iterator_init last e).ocb ∧
  p.mb.2 = (nd_iterator_init last e).mb_s + 1

/-! ## Execution entry points and default layouts -/

/-- The calls an `execute` makes, in order. `assert_invalid_prop_kind` is the
failing `assert(!"invalid prop_kind")` of the backward-data `execute`. -/
inductive exec_call_t where
  | execute_forward | execute_forward_3d
  | execute_backward_data | execute_backward_data_3d
  | assert_invalid_prop_kind
  | set_state_ready
  deriving DecidableEq, Repr

/-- `_jit_avx512_common_convolution_fwd_t::pd_t::ndims`. -/
def fwd_pd_t.ndims (pd : fwd_pd_t) : Nat :=
  pd.cdesc_.src_desc.ndims

/-- `_jit_avx512_common_convolution_fwd_t::execute`, on the member `conf_`. -/
def fwd_execute (conf_ : fwd_pd_t) : List exec_call_t :=
  [if conf_.ndims = 4 then exec_call_t.execute_forward else exec_call_t.execute_forward_3d,
   exec_call_t.set_state_ready]

/-- `jit_avx512_common_convolution_bwd_data_t::execute`, on the member `conf_`.
On the `default` label the failing assertion is recorded and the trace goes
on with the statement after the `switch`, as in a build without assertions. -/
def bwd_data_execute (conf_ : bwd_data_pd_t) : List exec_call_t :=
  (match conf_.desc.prop_kind with
    | prop_kind_t.backward_data =>
      [if conf_.ndims = 4 then exec_call_t.execute_backward_data
       else exec_call_t.execute_backward_data_3d]
    | _ => [exec_call_t.assert_invalid_prop_kind])
  ++ [exec_call_t.set_state_ready]

/-- `jit_avx512_common_convolution_bwd_weights_t::pd_t::ndims`. -/
def bwd_weights_pd_t.ndims (pd : bwd_weights_pd_t) : Nat :=
  pd.desc.src_desc.ndims

/-- `jit_avx512_common_convolution_bwd_weights_t::pd_t::src_format`. -/
def bwd_weights_pd_t.src_format (pd : bwd_weights_pd_t) : memory_format_t :=
  if pd.ndims = 4 then memory_format_t.nChw16c else memory_format_t.nCdhw16c

/-- `jit_avx512_common_convolution_bwd_weights_t::pd_t::wei_format`. -/
def bwd_weights_pd_t.wei_format (pd : bwd_weights_pd_t) : memory_format_t :=
  if pd.ndims = 4 then
    if pd.with_groups then memory_format_t.gOIhw16o16i else memory_format_t.OIhw16o16i
  else
    if pd.with_groups then memory_format_t.gOIdhw16o16i else memory_format_t.OIdhw16o16i

/-- `jit_avx512_common_convolution_bwd_weights_t::pd_t::set_default_params`,
with the `CHECK` macro spelled out; `set_format` as for backward data. -/
def bwd_weights_pd_t.set_default_params
    (set_format : memory_desc_t → memory_format_t → status_t × memory_desc_t)
    (pd : bwd_weights_pd_t) : status_t × bwd_weights_pd_t :=
  let r1 :=
    if pd.src_pd_.format = memory_format_t.any then
      set_format pd.src_pd_ pd.src_format
    else (status_t.success, pd.src_pd_)
  let pd1 := { pd with src_pd_ := r1.2 }
  if r1.1 ≠ status_t.success then (r1.1, pd1) else
  let r2 :=
    if pd1.diff_weights_pd_.format = memory_format_t.any then
      set_format pd1.diff_weights_pd_ pd1.wei_format
    else (status_t.success, pd1.diff_weights_pd_)
  let pd2 := { pd1 with diff_weights_pd_ := r2.2 }
  if r2.1 ≠ status_t.success then (r2.1, pd2) else
  let r3 :=
    if pd2.diff_dst_pd_.format = memory_format_t.any then
      set_format pd2.diff_dst_pd_ pd2.src_format
    else (status_t.success, pd2.diff_dst_pd_)
  let pd3 := { pd2 with diff_dst_pd_ := r3.2 }
  if r3.1 ≠ status_t.success then (r3.1, pd3) else
  (status_t.success, pd3)

/-- The contract of `set_format` that the default layouts rely on: when it
answers `success` the descriptor has the requested format. -/
def set_format_sets (set_format : memory_desc_t → memory_format_t → status_t × memory_desc_t) :
    Prop :=
  ∀ md fmt, (set_format md fmt).1 = status_t.success → (set_format md fmt).2.format = fmt

/-! ### Arithmetic of the partitioner -/

theorem balance211_start_zero (W nthr : Nat) : (balance211 W nthr 0).1 = 0 := by
  simp [balance211]

theorem balance211_start_le_end (W nthr t : Nat) :
    (balance211 W nthr t).1 ≤ (balance211 W nthr t).2 := by
  simp only [balance211]
  omega

theorem balance211_end_eq_next (W nthr t : Nat) :
    (balance211 W nthr t).2 = (balance211 W nthr (t + 1)).1 := by
  simp only [balance211, Nat.add_mul, Nat.one_mul]
  split <;> omega

theorem balance211_last_end (W nthr : Nat) (h : 1 ≤ nthr) :
    (balance211 W nthr (nthr - 1)).2 = W := by
  have hdm := Nat.div_add_mod W nthr
  have hlt := Nat.mod_lt W (show 0 < nthr by omega)
  obtain ⟨k, rfl⟩ : ∃ k, nthr = k + 1 := ⟨nthr - 1, by omega⟩
  simp only [balance211, Nat.add_sub_cancel]
  rw [Nat.add_mul, Nat.one_mul] at hdm
  split <;> omega

/-- The start of thread `nthr` (one past the last thread) is the work amount. -/
theorem balance211_start_nthr (W nthr : Nat) (h : 1 ≤ nthr) :
    (balance211 W nthr nthr).1 = W := by
  have h1 := balance211_end_eq_next W nthr (nthr - 1)
  rw [Nat.sub_add_cancel h, balance211_last_end W nthr h] at h1
  exact h1.symm

theorem balance211_start_mono (W nthr t d : Nat) :
    (balance211 W nthr t).1 ≤ (balance211 W nthr (t + d)).1 := by
  simp only [balance211, Nat.add_mul]
  omega

theorem balance211_end_le_start (W nthr t u : Nat) (h : t < u) :
    (balance211 W nthr t).2 ≤ (balance211 W nthr u).1 := by
  obtain ⟨d, rfl⟩ : ∃ d, u = t + 1 + d := ⟨u - (t + 1), by omega⟩
  rw [balance211_end_eq_next]
  exact balance211_start_mono W nthr (t + 1) d

/-- Every index below the start of thread `k` lies in the range of an earlier
thread. -/
theorem balance211_covered_below (W nthr i : Nat) :
    ∀ k, i < (balance211 W nthr k).1 →
      ∃ t, t < k ∧ (balance211 W nthr t).1 ≤ i ∧ i < (balance211 W nthr t).2 := by
  intro k
  induction k with
  | zero =>
    intro h
    rw [balance211_start_zero] at h
    omega
  | succ k ih =>
    intro h
    by_cases hk : i < (balance211 W nthr k).1
    · obtain ⟨t, ht, h1, h2⟩ := ih hk
      exact ⟨t, by omega, h1, h2⟩
    · refine ⟨k, by omega, by omega, ?_⟩
      rw [balance211_end_eq_next]
      exact h

theorem balance211_ceil (W nthr : Nat) (h : 1 ≤ nthr) :
    (W + nthr - 1) / nthr = W / nthr + (if W % nthr = 0 then 0 else 1) := by
  have hdm := Nat.div_add_mod W nthr
  have hlt := Nat.mod_lt W (show 0 < nthr by omega)
  have hq : nthr * (W / nthr) = W / nthr * nthr := Nat.mul_comm _ _
  by_cases h0 : W % nthr = 0
  · rw [if_pos h0, Nat.add_zero]
    apply Nat.div_eq_of_lt_le
    · omega
    · rw [Nat.succ_mul]
      omega
  · rw [if_neg h0]
    apply Nat.div_eq_of_lt_le
    · rw [Nat.add_mul]
      omega
    · rw [Nat.succ_mul, Nat.add_mul]
      omega

/-! ### Arithmetic of the index mapper -/

theorem succ_mod_eq (n X : Nat) : (n + 1) % X = (n % X + 1) % X := by
  rw [Nat.add_mod n 1 X, Nat.add_mod (n % X) 1 X, Nat.mod_mod]

theorem succ_div_eq (n X : Nat) (hX : 0 < X) :
    (n + 1) / X = n / X + (if (n % X + 1) % X = 0 then 1 else 0) := by
  have hdm := Nat.div_add_mod n X
  have hlt := Nat.mod_lt n hX
  have hq : X * (n / X) = n / X * X := Nat.mul_comm _ _
  by_cases h : n % X + 1 = X
  · have h0 : (n % X + 1) % X = 0 := by rw [h, Nat.mod_self]
    rw [if_pos h0]
    apply Nat.div_eq_of_lt_le
    · rw [Nat.add_mul]
      omega
    · rw [Nat.succ_mul, Nat.add_mul]
      omega
  · have hlt1 : n % X + 1 < X := by omega
    have h1 : (n % X + 1) % X = n % X + 1 := Nat.mod_eq_of_lt hlt1
    have h2 : ¬ (n % X + 1) % X = 0 := by omega
    rw [if_neg h2]
    show (n + 1) / X = n / X
    apply Nat.div_eq_of_lt_le
    · omega
    · rw [Nat.succ_mul]
      omega

/-- An outer axis of the jump agrees with decoding the incremented (on carry)
quotient. -/
theorem nd_iterator_jump_axis_spec (carry : Bool) (n X : Nat) (hX : 0 < X) :
    (nd_iterator_jump_axis carry (n % X) X).1 = (n + (if carry then 1 else 0)) % X ∧
    (n + (if carry then 1 else 0)) / X
      = n / X + (if (nd_iterator_jump_axis carry (n % X) X).2 then 1 else 0) := by
  cases carry with
  | false => simp [nd_iterator_jump_axis]
  | true =>
    simp only [nd_iterator_jump_axis, if_true]
    refine ⟨(succ_mod_eq n X).symm, ?_⟩
    rw [succ_div_eq n X hX]
    by_cases h : (n % X + 1) % X = 0
    · simp [h]
    · simp [h]

/-- The innermost axis of the jump: the amount consumed, the new coordinate
and the carry. -/
theorem nd_iterator_jump_last_spec (cur end_ X : Nat) (hX : 0 < X) (_h : cur < end_) :
    (nd_iterator_jump_last cur end_ (cur % X) X).1
      = cur + min (end_ - cur) (X - cur % X) ∧
    (nd_iterator_jump_last cur end_ (cur % X) X).2.1
      = (cur + min (end_ - cur) (X - cur % X)) % X ∧
    (cur + min (end_ - cur) (X - cur % X)) / X
      = cur / X + (if (nd_iterator_jump_last cur end_ (cur % X) X).2.2 then 1 else 0) := by
  have hdm := Nat.div_add_mod cur X
  have hlt := Nat.mod_lt cur hX
  have hq : X * (cur / X) = cur / X * X := Nat.mul_comm _ _
  by_cases hj : X - cur % X ≤ end_ - cur
  · have hmin : min (end_ - cur) (X - cur % X) = X - cur % X := Nat.min_eq_right hj
    have hnew : cur + (X - cur % X) = (cur / X + 1) * X := by
      rw [Nat.add_mul]
      omega
    have r : nd_iterator_jump_last cur end_ (cur % X) X = (cur + (X - cur % X), 0, true) := by
      simp only [nd_iterator_jump_last, if_pos hj]
    rw [r, hmin, hnew]
    refine ⟨rfl, ?_, ?_⟩
    · exact (Nat.mul_mod_left _ _).symm
    · simp [Nat.mul_div_cancel _ hX]
  · have hle : end_ - cur ≤ X - cur % X := by omega
    have hmin : min (end_ - cur) (X - cur % X) = end_ - cur := Nat.min_eq_left hle
    have r : nd_iterator_jump_last cur end_ (cur % X) X
        = (cur + (end_ - cur), cur % X + (end_ - cur), false) := by
      simp only [nd_iterator_jump_last, if_neg hj]
    have hnew : cur + (end_ - cur) = (cur % X + (end_ - cur)) + X * (cur / X) := by omega
    have hsmall : cur % X + (end_ - cur) < X := by omega
    rw [r, hmin]
    refine ⟨rfl, ?_, ?_⟩
    · show cur % X + (end_ - cur) = (cur + (end_ - cur)) % X
      rw [hnew, Nat.add_mul_mod_self_left, Nat.mod_eq_of_lt hsmall]
    · show (cur + (end_ - cur)) / X = cur / X + (if false = true then 1 else 0)
      rw [hnew, Nat.add_mul_div_left _ _ hX, Nat.div_eq_of_lt hsmall]
      simp

/-- A jump from a decoded coordinate lands on the decoding of the new start,
which is the old one advanced by the remaining range capped at the rest of
the innermost axis. -/
theorem nd_iterator_jump_eq_init (e : Extents) (he : e.positive) (start end_ : Nat)
    (h : start < end_) :
    nd_iterator_jump start end_ (nd_iterator_init start e) e
      = (start + min (end_ - start) (e.mb_block - start % e.mb_block),
         nd_iterator_init (start + min (end_ - start) (e.mb_block - start % e.mb_block)) e) := by
  obtain ⟨h0, h1, h2, h3, h4⟩ := he
  obtain ⟨l1, l2, l3⟩ := nd_iterator_jump_last_spec start end_ e.mb_block h4 h
  simp only [nd_iterator_jump, nd_iterator_init, nd_iterator_init_axis]
  generalize nd_iterator_jump_last start end_ (start % e.mb_block) e.mb_block = r4 at *
  obtain ⟨a1, a2⟩ := nd_iterator_jump_axis_spec r4.2.2 (start / e.mb_block) e.oc_iters h3
  generalize nd_iterator_jump_axis r4.2.2 (start / e.mb_block % e.oc_iters) e.oc_iters = r3 at *
  obtain ⟨b1, b2⟩ := nd_iterator_jump_axis_spec r3.2 (start / e.mb_block / e.oc_iters) e.oh h2
  generalize nd_iterator_jump_axis r3.2 (start / e.mb_block / e.oc_iters % e.oh) e.oh = r2 at *
  obtain ⟨c1, c2⟩ := nd_iterator_jump_axis_spec r2.2
    (start / e.mb_block / e.oc_iters / e.oh) e.nb_mb h1
  generalize nd_iterator_jump_axis r2.2
    (start / e.mb_block / e.oc_iters / e.oh % e.nb_mb) e.nb_mb = r1 at *
  obtain ⟨d1, _⟩ := nd_iterator_jump_axis_spec r1.2
    (start / e.mb_block / e.oc_iters / e.oh / e.nb_mb) e.ngroups h0
  rw [l1, l2, l3, d1, c1, b1, a1, ← c2, ← b2, ← a2]

theorem mul_add_lt_mul (n N x X : Nat) (hn : n < N) (hx : x < X) : n * X + x < N * X := by
  have h1 : (n + 1) * X ≤ N * X := Nat.mul_le_mul_right X hn
  rw [Nat.add_mul, Nat.one_mul] at h1
  omega

theorem mul_add_div_eq (n x X : Nat) (hx : x < X) : (n * X + x) / X = n := by
  rw [Nat.add_comm, Nat.mul_comm, Nat.add_mul_div_left _ _ (by omega : 0 < X),
    Nat.div_eq_of_lt hx, Nat.zero_add]

theorem mul_add_mod_eq (n x X : Nat) (hx : x < X) : (n * X + x) % X = x := by
  rw [Nat.add_comm, Nat.mul_comm, Nat.add_mul_mod_self_left, Nat.mod_eq_of_lt hx]

/-- Decoding yields coordinates inside their extents (only the outermost one
needs the index to be inside the iteration space). -/
theorem nd_iterator_init_bounds (e : Extents) (he : e.positive) (i : Nat) :
    (nd_iterator_init i e).mbb < e.nb_mb ∧ (nd_iterator_init i e).oh < e.oh ∧
    (nd_iterator_init i e).ocb < e.oc_iters ∧ (nd_iterator_init i e).mb_s < e.mb_block := by
  obtain ⟨_, h1, h2, h3, h4⟩ := he
  simp only [nd_iterator_init, nd_iterator_init_axis]
  exact ⟨Nat.mod_lt _ h1, Nat.mod_lt _ h2, Nat.mod_lt _ h3, Nat.mod_lt _ h4⟩

/-- Re-encoding the decoded coordinate of an index inside the iteration space
gives the index back. -/
theorem encode_nd_iterator_init (e : Extents) (i : Nat) (hi : i < e.size) :
    encode (nd_iterator_init i e) e = i := by
  have hg : i / e.mb_block / e.oc_iters / e.oh / e.nb_mb < e.ngroups := by
    rw [Nat.div_lt_iff_lt_mul, Nat.div_lt_iff_lt_mul, Nat.div_lt_iff_lt_mul,
      Nat.div_lt_iff_lt_mul]
    · exact hi
    all_goals
      apply Nat.pos_of_ne_zero
      intro h
      simp [Extents.size, h] at hi
  simp only [encode, nd_iterator_init, nd_iterator_init_axis]
  rw [Nat.mod_eq_of_lt hg, Nat.div_add_mod', Nat.div_add_mod', Nat.div_add_mod',
    Nat.div_add_mod']

/-- Encoding a coordinate inside the extents lands inside the iteration space,
and decoding it gives the coordinate back. -/
theorem nd_iterator_init_encode (e : Extents) (c : Coord) (hg : c.g < e.ngroups)
    (hmbb : c.mbb < e.nb_mb) (hoh : c.oh < e.oh) (hocb : c.ocb < e.oc_iters)
    (hmb : c.mb_s < e.mb_block) :
    encode c e < e.size ∧ nd_iterator_init (encode c e) e = c := by
  have b1 := mul_add_lt_mul _ _ _ _ hg hmbb
  have b2 := mul_add_lt_mul _ _ _ _ b1 hoh
  have b3 := mul_add_lt_mul _ _ _ _ b2 hocb
  have b4 := mul_add_lt_mul _ _ _ _ b3 hmb
  refine ⟨b4, ?_⟩
  simp only [encode, nd_iterator_init, nd_iterator_init_axis]
  rw [mul_add_div_eq _ _ _ hmb, mul_add_div_eq _ _ _ hocb, mul_add_div_eq _ _ _ hoh,
    mul_add_div_eq _ _ _ hmbb, mul_add_mod_eq _ _ _ hmb, mul_add_mod_eq _ _ _ hocb,
    mul_add_mod_eq _ _ _ hoh, mul_add_mod_eq _ _ _ hmbb, Nat.mod_eq_of_lt hg]

/-! ### The planning loop -/

theorem range'_glue (a b c : Nat) (h1 : a ≤ b) (h2 : b ≤ c) :
    List.range' a (b - a) ++ List.range' b (c - b) = List.range' a (c - a) := by
  obtain ⟨m, rfl⟩ := Nat.exists_eq_add_of_le h1
  obtain ⟨n, rfl⟩ := Nat.exists_eq_add_of_le h2
  rw [Nat.add_sub_cancel_left, Nat.add_sub_cancel_left,
    show a + m + n - a = n + m by omega, List.range'_append_1]

theorem chunk_length_eq (m r w : Nat) (hr : r < m) :
    (if r + w > m then m else r + w) - r = min w (m - r) := by
  split <;> omega

theorem chunk_indices_append (l : List (Nat × Nat)) (a d : Nat) :
    chunk_indices (l ++ [(a, d)]) = chunk_indices l ++ List.range' a d := by
  simp [chunk_indices]

/-- One iteration from a state whose coordinate is the decoding of `start`. -/
theorem plan_iter_spec (e : Extents) (he : e.positive) (end_ : Nat) (s : plan_state)
    (hc : s.c = nd_iterator_init s.start e) (h : s.start < end_) :
    (plan_iter e end_ s).start
      = s.start + min (end_ - s.start) (e.mb_block - s.start % e.mb_block) ∧
    (plan_iter e end_ s).c = nd_iterator_init (plan_iter e end_ s).start e ∧
    (plan_iter e end_ s).chunks
      = s.chunks ++ [(s.start, min (end_ - s.start) (e.mb_block - s.start % e.mb_block))] ∧
    s.start < (plan_iter e end_ s).start ∧ (plan_iter e end_ s).start ≤ end_ := by
  have hj := nd_iterator_jump_eq_init e he s.start end_ h
  have hmb : s.c.mb_s = s.start % e.mb_block := by
    rw [hc]
    rfl
  have hlt := Nat.mod_lt s.start he.2.2.2.2
  have h1 : (plan_iter e end_ s).start
      = s.start + min (end_ - s.start) (e.mb_block - s.start % e.mb_block) := by
    simp only [plan_iter]
    rw [hc, hj]
  have h2 : (plan_iter e end_ s).c = nd_iterator_init (plan_iter e end_ s).start e := by
    simp only [plan_iter]
    rw [hc, hj]
  refine ⟨h1, h2, ?_, ?_, ?_⟩
  · simp only [plan_iter, hmb]
    rw [chunk_length_eq _ _ _ hlt]
  · rw [h1]
    omega
  · rw [h1]
    omega

/-- With at least `end - start` iterations allowed, the loop ends, at
`start = end`, with the coordinate decoded from it and with chunks whose
indices continue the previous ones up to `end`. -/
theorem plan_loop_spec (e : Extents) (he : e.positive) (end_ : Nat) :
    ∀ (fuel : Nat) (s : plan_state), s.c = nd_iterator_init s.start e →
      s.start ≤ end_ → end_ - s.start ≤ fuel →
      ∃ s', plan_loop e end_ fuel s = some s' ∧ s'.start = end_ ∧
        s'.c = nd_iterator_init end_ e ∧
        chunk_indices s'.chunks
          = chunk_indices s.chunks ++ List.range' s.start (end_ - s.start) := by
  intro fuel
  induction fuel with
  | zero =>
    intro s hc hle hf
    have hs : s.start = end_ := by omega
    refine ⟨s, ?_, hs, ?_, ?_⟩
    · simp [plan_loop, hs]
    · rw [hc, hs]
    · simp [hs]
  | succ fuel ih =>
    intro s hc hle hf
    by_cases hlt : s.start < end_
    · obtain ⟨h1, h2, h3, h4, h5⟩ := plan_iter_spec e he end_ s hc hlt
      obtain ⟨s', r1, r2, r3, r4⟩ := ih (plan_iter e end_ s) h2 h5 (by omega)
      refine ⟨s', ?_, r2, r3, ?_⟩
      · simp only [plan_loop, if_pos hlt]
        exact r1
      · rw [r4, h3, chunk_indices_append, List.append_assoc]
        congr 1
        have hd : min (end_ - s.start) (e.mb_block - s.start % e.mb_block)
            = (plan_iter e end_ s).start - s.start := by omega
        rw [hd]
        exact range'_glue _ _ _ (by omega) h5
    · have hs : s.start = end_ := by omega
      refine ⟨s, ?_, hs, ?_, ?_⟩
      · simp [plan_loop, hlt]
      · rw [hc, hs]
      · simp [hs]

/-- One guarded jump from a decoded pair: the coordinate stays the decoding of
`start`, which stays at most `end` and moves forward while below it. -/
theorem jump_step_spec (e : Extents) (he : e.positive) (end_ : Nat) (sc : Nat × Coord)
    (hc : sc.2 = nd_iterator_init sc.1 e) (hle : sc.1 ≤ end_) :
    (jump_step e end_ sc).2 = nd_iterator_init (jump_step e end_ sc).1 e ∧
    (jump_step e end_ sc).1 ≤ end_ ∧
    (sc.1 < end_ → sc.1 < (jump_step e end_ sc).1) ∧
    (¬ sc.1 < end_ → jump_step e end_ sc = sc) := by
  have hlt := Nat.mod_lt sc.1 he.2.2.2.2
  by_cases h : sc.1 < end_
  · have hj := nd_iterator_jump_eq_init e he sc.1 end_ h
    simp only [jump_step, if_pos h]
    rw [hc, hj]
    refine ⟨rfl, ?_, ?_, ?_⟩
    · show sc.1 + min (end_ - sc.1) (e.mb_block - sc.1 % e.mb_block) ≤ end_
      omega
    · intro _
      show sc.1 < sc.1 + min (end_ - sc.1) (e.mb_block - sc.1 % e.mb_block)
      omega
    · intro h'
      exact absurd h h'
  · simp only [jump_step, if_neg h]
    exact ⟨hc, hle, fun h' => absurd h' h, fun _ => trivial⟩

theorem jump_walk_succ (e : Extents) (end_ k start : Nat) :
    jump_walk e end_ (k + 1) start = jump_step e end_ (jump_walk e end_ k start) := by
  simp only [jump_walk, Function.iterate_succ_apply']

/-- Invariant of the walk: the coordinate is the decoding of `start`, and
`start` stays in the range and has moved at least one index per pass until
it reaches `end`. -/
theorem jump_walk_spec (e : Extents) (he : e.positive) (start end_ : Nat)
    (hle : start ≤ end_) :
    ∀ k, (jump_walk e end_ k start).2 = nd_iterator_init (jump_walk e end_ k start).1 e ∧
      start ≤ (jump_walk e end_ k start).1 ∧ (jump_walk e end_ k start).1 ≤ end_ ∧
      min end_ (start + k) ≤ (jump_walk e end_ k start).1 := by
  intro k
  induction k with
  | zero =>
    refine ⟨rfl, Nat.le_refl _, hle, ?_⟩
    show min end_ (start + 0) ≤ start
    omega
  | succ k ih =>
    obtain ⟨i1, i2, i3, i4⟩ := ih
    obtain ⟨j1, j2, j3, j4⟩ := jump_step_spec e he end_ (jump_walk e end_ k start) i1 i3
    rw [jump_walk_succ]
    refine ⟨j1, ?_, j2, ?_⟩
    · by_cases h : (jump_walk e end_ k start).1 < end_
      · have := j3 h
        omega
      · rw [j4 h]
        exact i2
    · by_cases h : (jump_walk e end_ k start).1 < end_
      · have := j3 h
        omega
      · rw [j4 h]
        omega

/-! ### The padded-bias loop -/

/-- The zeroing loop keeps the length of the buffer, writes `0` at the indices
of the loop that are inside the buffer and leaves every other element as it
was. -/
theorem zero_fold_spec {α : Type} [Zero α] : ∀ (n lo : Nat) (buf : List α),
    ((List.range' lo n).foldl (fun b oc => b.set oc 0) buf).length = buf.length ∧
    ∀ i, ((List.range' lo n).foldl (fun b oc => b.set oc 0) buf)[i]?
      = if lo ≤ i ∧ i < lo + n ∧ i < buf.length then some 0 else buf[i]? := by
  intro n
  induction n with
  | zero =>
    intro lo buf
    refine ⟨rfl, fun i => ?_⟩
    have h : ¬ (lo ≤ i ∧ i < lo + 0 ∧ i < buf.length) := by omega
    rw [if_neg h]
    rfl
  | succ n ih =>
    intro lo buf
    obtain ⟨h1, h2⟩ := ih (lo + 1) (buf.set lo 0)
    rw [List.range'_succ, List.foldl_cons]
    refine ⟨by rw [h1, List.length_set], fun i => ?_⟩
    rw [h2 i, List.length_set, List.getElem?_set]
    by_cases hi : lo = i
    · subst hi
      by_cases hl : lo < buf.length
      · rw [if_neg (by omega), if_pos rfl, if_pos hl, if_pos ⟨Nat.le_refl _, by omega, hl⟩]
      · rw [if_neg (by omega), if_pos rfl, if_neg hl, if_neg (by omega)]
        exact (List.getElem?_eq_none (by omega)).symm
    · rw [if_neg hi]
      by_cases hc : lo + 1 ≤ i ∧ i < lo + 1 + n ∧ i < buf.length
      · rw [if_pos hc, if_pos (by omega)]
      · rw [if_neg hc, if_neg (by omega)]

theorem zero_tail_spec {α : Type} [Zero α] (buf : List α) (lo hi : Nat) :
    (zero_tail buf lo hi).length = buf.length ∧
    ∀ i, (zero_tail buf lo hi)[i]?
      = if lo ≤ i ∧ i < hi ∧ i < buf.length then some 0 else buf[i]? := by
  obtain ⟨h1, h2⟩ := zero_fold_spec (hi - lo) lo buf
  refine ⟨h1, fun i => ?_⟩
  show ((List.range' lo (hi - lo)).foldl (fun b oc => b.set oc 0) buf)[i]? = _
  rw [h2 i]
  by_cases hc : lo ≤ i ∧ i < hi ∧ i < buf.length
  · rw [if_pos hc, if_pos (by omega)]
  · rw [if_neg hc, if_neg (by omega)]

/-! ### Primitive descriptors -/

/-- `set_default_params` changes the memory descriptors only: the operator
descriptor and the base-class queries stay as they were. -/
theorem bwd_data_set_default_params_frame (a b c : data_type_t)
    (set_format : memory_desc_t → memory_format_t → status_t × memory_desc_t)
    (pd : bwd_data_pd_t) :
    (pd.set_default_params a b c set_format).2.desc = pd.desc ∧
    (pd.set_default_params a b c set_format).2.has_zero_dim_memory = pd.has_zero_dim_memory ∧
    (pd.set_default_params a b c set_format).2.with_groups = pd.with_groups := by
  simp only [bwd_data_pd_t.set_default_params]
  split_ifs <;> exact ⟨rfl, rfl, rfl⟩

theorem fwd_pd_init_eq (with_relu : Bool) (src_type wei_type dst_type : data_type_t)
    (init_conf : fwd_pd_t → status_t) (pd : fwd_pd_t) :
    fwd_pd_init with_relu src_type wei_type dst_type init_conf pd
      = if fwd_rejected with_relu src_type wei_type dst_type pd then status_t.unimplemented
        else init_conf pd := by
  by_cases h : fwd_rejected with_relu src_type wei_type dst_type pd
  · rw [if_pos h]
    simp only [fwd_rejected] at h
    simp only [fwd_pd_init]
    rw [if_pos]
    simp only [Bool.not_eq_true', Bool.and_eq_false_iff, Bool.or_eq_false_iff,
      Bool.not_eq_false', Bool.and_eq_true, Bool.or_eq_true, beq_iff_eq, beq_eq_false_iff_ne,
      Bool.true_and, ne_eq]
    tauto
  · rw [if_neg h]
    simp only [fwd_rejected] at h
    simp only [fwd_pd_init]
    rw [if_neg]
    simp only [Bool.not_eq_true', Bool.and_eq_false_iff, Bool.or_eq_false_iff,
      Bool.not_eq_false', Bool.and_eq_true, Bool.or_eq_true, beq_iff_eq, beq_eq_false_iff_ne,
      Bool.true_and, ne_eq]
    tauto

theorem bwd_weights_pd_init_eq (src_type diff_dst_type diff_weights_type : data_type_t)
    (init_conf : bwd_weights_pd_t → status_t) (pd : bwd_weights_pd_t) :
    bwd_weights_pd_init src_type diff_dst_type diff_weights_type init_conf pd
      = if bwd_weights_rejected src_type diff_dst_type diff_weights_type pd
        then status_t.unimplemented else init_conf pd := by
  by_cases h : bwd_weights_rejected src_type diff_dst_type diff_weights_type pd
  · rw [if_pos h]
    simp only [bwd_weights_rejected] at h
    simp only [bwd_weights_pd_init]
    rw [if_pos]
    simp only [Bool.not_eq_true', Bool.and_eq_false_iff, Bool.or_eq_false_iff,
      Bool.not_eq_false', Bool.and_eq_true, Bool.or_eq_true, beq_iff_eq, beq_eq_false_iff_ne,
      Bool.true_and, ne_eq]
    tauto
  · rw [if_neg h]
    simp only [bwd_weights_rejected] at h
    simp only [bwd_weights_pd_init]
    rw [if_neg]
    simp only [Bool.not_eq_true', Bool.and_eq_false_iff, Bool.or_eq_false_iff,
      Bool.not_eq_false', Bool.and_eq_true, Bool.or_eq_true, beq_iff_eq, beq_eq_false_iff_ne,
      Bool.true_and, ne_eq]
    tauto

theorem bwd_data_pd_init_eq (diff_dst_type wei_type diff_src_type : data_type_t)
    (set_format : memory_desc_t → memory_format_t → status_t × memory_desc_t)
    (init_conf : bwd_data_pd_t → status_t) (pd : bwd_data_pd_t) :
    bwd_data_pd_init diff_dst_type wei_type diff_src_type set_format init_conf pd
      = if (pd.set_default_params diff_dst_type wei_type diff_src_type set_format).1
              ≠ status_t.success
            ∨ bwd_data_rejected diff_dst_type wei_type diff_src_type pd
        then (status_t.unimplemented,
              (pd.set_default_params diff_dst_type wei_type diff_src_type set_format).2)
        else (init_conf
                (pd.set_default_params diff_dst_type wei_type diff_src_type set_format).2,
              (pd.set_default_params diff_dst_type wei_type diff_src_type set_format).2) := by
  obtain ⟨f1, f2, _⟩ :=
    bwd_data_set_default_params_frame diff_dst_type wei_type diff_src_type set_format pd
  by_cases h : (pd.set_default_params diff_dst_type wei_type diff_src_type set_format).1
        ≠ status_t.success
      ∨ bwd_data_rejected diff_dst_type wei_type diff_src_type pd
  · rw [if_pos h]
    simp only [bwd_data_rejected] at h
    simp only [bwd_data_pd_init, f1, f2]
    rw [if_pos]
    simp only [Bool.not_eq_true', Bool.and_eq_false_iff, Bool.or_eq_false_iff,
      Bool.not_eq_false', Bool.and_eq_true, Bool.or_eq_true, beq_iff_eq, beq_eq_false_iff_ne,
      Bool.true_and, ne_eq]
    tauto
  · rw [if_neg h]
    simp only [bwd_data_rejected] at h
    simp only [bwd_data_pd_init, f1, f2]
    rw [if_neg]
    simp only [Bool.not_eq_true', Bool.and_eq_false_iff, Bool.or_eq_false_iff,
      Bool.not_eq_false', Bool.and_eq_true, Bool.or_eq_true, beq_iff_eq, beq_eq_false_iff_ne,
      Bool.true_and, ne_eq]
    tauto

/-! ### The 32-bit work amount -/

/-- C1: for `nthr ≥ 1` the ranges `balance211` gives to threads
`0 .. nthr-1` are contiguous and gap-free: the first starts at `0`, each
ends where the next starts, the last ends at `work_amount`; hence ranges of
different threads are disjoint and an index lies in some thread's range
exactly when it is below `work_amount`. -/
theorem balance211_ranges_partition (work_amount nthr : Nat) (hn : 1 ≤ nthr) :
    (balance211 work_amount nthr 0).1 = 0 ∧
    (∀ t, t + 1 < nthr →
      (balance211 work_amount nthr t).2 = (balance211 work_amount nthr (t + 1)).1) ∧
    (balance211 work_amount nthr (nthr - 1)).2 = work_amount ∧
    (∀ t u, t < u → u < nthr →
      (balance211 work_amount nthr t).2 ≤ (balance211 work_amount nthr u).1) ∧
    (∀ t u i, t < nthr → u < nthr →
      (balance211 work_amount nthr t).1 ≤ i → i < (balance211 work_amount nthr t).2 →
      (balance211 work_amount nthr u).1 ≤ i → i < (balance211 work_amount nthr u).2 →
      t = u) ∧
    (∀ i, i < work_amount ↔
      ∃ t, t < nthr ∧ (balance211 work_amount nthr t).1 ≤ i ∧
        i < (balance211 work_amount nthr t).2) := by
  refine ⟨balance211_start_zero _ _, fun t _ => balance211_end_eq_next _ _ t,
    balance211_last_end _ _ hn, fun t u h _ => balance211_end_le_start _ _ t u h, ?_, ?_⟩
  · intro t u i _ _ h1 h2 h3 h4
    rcases Nat.lt_trichotomy t u with h | h | h
    · have := balance211_end_le_start work_amount nthr t u h
      omega
    · exact h
    · have := balance211_end_le_start work_amount nthr u t h
      omega
  · intro i
    constructor
    · intro hi
      rw [← balance211_start_nthr work_amount nthr hn] at hi
      exact balance211_covered_below work_amount nthr i nthr hi
    · rintro ⟨t, ht, _, h2⟩
      have h3 : (balance211 work_amount nthr t).2 ≤ (balance211 work_amount nthr nthr).1 :=
        balance211_end_le_start _ _ t nthr ht
      rw [balance211_start_nthr work_amount nthr hn] at h3
      omega

theorem balance211_ranges_partition_witness :
    (balance211 10 3 0).1 = 0 ∧
    (∀ t, t + 1 < 3 → (balance211 10 3 t).2 = (balance211 10 3 (t + 1)).1) ∧
    (balance211 10 3 (3 - 1)).2 = 10 ∧
    (∀ t u, t < u → u < 3 → (balance211 10 3 t).2 ≤ (balance211 10 3 u).1) ∧
    (∀ t u i, t < 3 → u < 3 →
      (balance211 10 3 t).1 ≤ i → i < (balance211 10 3 t).2 →
      (balance211 10 3 u).1 ≤ i → i < (balance211 10 3 u).2 → t = u) ∧
    (∀ i, i < 10 ↔
      ∃ t, t < 3 ∧ (balance211 10 3 t).1 ≤ i ∧ i < (balance211 10 3 t).2) :=
  balance211_ranges_partition 10 3 (by decide)

/-- C2: for `nthr ≥ 1` and `ithr < nthr` the length of the range of thread
`ithr` is `⌊work_amount / nthr⌋` or `⌈work_amount / nthr⌉`; it is the ceiling,
one more than the floor, exactly for the threads with
`ithr < work_amount mod nthr`, and the floor for the others. For
`work_amount = 10`, `nthr = 3` the ranges are `[0,4)`, `[4,7)`, `[7,10)`. -/
theorem balance211_lengths (work_amount nthr ithr : Nat) (hn : 1 ≤ nthr)
    (_hi : ithr < nthr) :
    ((balance211 work_amount nthr ithr).2 - (balance211 work_amount nthr ithr).1
        = work_amount / nthr ∨
      (balance211 work_amount nthr ithr).2 - (balance211 work_amount nthr ithr).1
        = (work_amount + nthr - 1) / nthr) ∧
    (ithr < work_amount % nthr ↔
      (balance211 work_amount nthr ithr).2 - (balance211 work_amount nthr ithr).1
        = work_amount / nthr + 1) ∧
    (ithr < work_amount % nthr →
      (balance211 work_amount nthr ithr).2 - (balance211 work_amount nthr ithr).1
        = (work_amount + nthr - 1) / nthr ∧
      (work_amount + nthr - 1) / nthr = work_amount / nthr + 1) ∧
    (¬ ithr < work_amount % nthr →
      (balance211 work_amount nthr ithr).2 - (balance211 work_amount nthr ithr).1
        = work_amount / nthr) ∧
    (balance211 10 3 0 = (0, 4) ∧ balance211 10 3 1 = (4, 7) ∧
      balance211 10 3 2 = (7, 10)) := by
  have hlen : (balance211 work_amount nthr ithr).2 - (balance211 work_amount nthr ithr).1
      = work_amount / nthr + (if ithr < work_amount % nthr then 1 else 0) := by
    simp only [balance211]
    generalize work_amount / nthr = q
    by_cases h : ithr < work_amount % nthr
    · rw [if_pos h, if_pos h]
      omega
    · rw [if_neg h, if_neg h]
      omega
  have hc := balance211_ceil work_amount nthr hn
  rw [hlen, hc]
  refine ⟨?_, ?_, ?_, ?_, by decide⟩
  · by_cases h : ithr < work_amount % nthr
    · right
      rw [if_pos h, if_neg (by omega)]
    · left
      rw [if_neg h]
      rfl
  · by_cases h : ithr < work_amount % nthr
    · simp [h]
    · simp [h]
  · intro h
    rw [if_pos h, if_neg (by omega)]
    exact ⟨rfl, rfl⟩
  · intro h
    rw [if_neg h]
    rfl

theorem balance211_lengths_witness :
    ((balance211 10 3 0).2 - (balance211 10 3 0).1 = 10 / 3 ∨
      (balance211 10 3 0).2 - (balance211 10 3 0).1 = (10 + 3 - 1) / 3) ∧
    (0 < 10 % 3 ↔ (balance211 10 3 0).2 - (balance211 10 3 0).1 = 10 / 3 + 1) ∧
    (0 < 10 % 3 →
      (balance211 10 3 0).2 - (balance211 10 3 0).1 = (10 + 3 - 1) / 3 ∧
      (10 + 3 - 1) / 3 = 10 / 3 + 1) ∧
    (¬ 0 < 10 % 3 → (balance211 10 3 0).2 - (balance211 10 3 0).1 = 10 / 3) ∧
    (balance211 10 3 0 = (0, 4) ∧ balance211 10 3 1 = (4, 7) ∧
      balance211 10 3 2 = (7, 10)) :=
  balance211_lengths 10 3 0 (by decide) (by decide)

/-! ## Claims on the index mapper and the planning loops -/

/-- C4: for positive axis extents and a flat index `i` inside the iteration
space, `nd_iterator_init` yields coordinates each within its extent, and the
row-major re-encoding `(((g*nb_mb + mbb)*oh_extent + oh)*oc_iters + ocb)*mb_block
+ mb_s` gives `i` back; conversely every coordinate tuple within the extents
encodes to an index inside the space that decodes to the tuple: decoding is
a bijection between flat indices and coordinate tuples. -/
theorem nd_iterator_init_bijection (e : Extents) (he : e.positive) :
    (∀ i, i < e.ngroups * e.nb_mb * e.oh * e.oc_iters * e.mb_block →
      (nd_iterator_init i e).g < e.ngroups ∧ (nd_iterator_init i e).mbb < e.nb_mb ∧
      (nd_iterator_init i e).oh < e.oh ∧ (nd_iterator_init i e).ocb < e.oc_iters ∧
      (nd_iterator_init i e).mb_s < e.mb_block ∧
      ((((nd_iterator_init i e).g * e.nb_mb + (nd_iterator_init i e).mbb) * e.oh
          + (nd_iterator_init i e).oh) * e.oc_iters + (nd_iterator_init i e).ocb) * e.mb_block
        + (nd_iterator_init i e).mb_s = i) ∧
    (∀ c : Coord, c.g < e.ngroups → c.mbb < e.nb_mb → c.oh < e.oh → c.ocb < e.oc_iters →
      c.mb_s < e.mb_block →
      encode c e < e.ngroups * e.nb_mb * e.oh * e.oc_iters * e.mb_block ∧
      nd_iterator_init (encode c e) e = c) := by
  constructor
  · intro i hi
    obtain ⟨b1, b2, b3, b4⟩ := nd_iterator_init_bounds e he i
    exact ⟨Nat.mod_lt _ he.1, b1, b2, b3, b4, encode_nd_iterator_init e i hi⟩
  · intro c h0 h1 h2 h3 h4
    exact nd_iterator_init_encode e c h0 h1 h2 h3 h4

theorem nd_iterator_init_bijection_witness :
    ((nd_iterator_init 29 (fwd_extents jcp_example)).g < 1 ∧
      (nd_iterator_init 29 (fwd_extents jcp_example)).mbb < 2 ∧
      (nd_iterator_init 29 (fwd_extents jcp_example)).oh < 4 ∧
      (nd_iterator_init 29 (fwd_extents jcp_example)).ocb < 3 ∧
      (nd_iterator_init 29 (fwd_extents jcp_example)).mb_s < 2 ∧
      encode (nd_iterator_init 29 (fwd_extents jcp_example)) (fwd_extents jcp_example) = 29) ∧
    (encode ⟨0, 1, 0, 2, 1⟩ (fwd_extents jcp_example) < 48 ∧
      nd_iterator_init (encode ⟨0, 1, 0, 2, 1⟩ (fwd_extents jcp_example))
        (fwd_extents jcp_example) = ⟨0, 1, 0, 2, 1⟩) :=
  ⟨(nd_iterator_init_bijection (fwd_extents jcp_example) (by decide)).1 29 (by decide),
   (nd_iterator_init_bijection (fwd_extents jcp_example) (by decide)).2 ⟨0, 1, 0, 2, 1⟩
     (by decide) (by decide) (by decide) (by decide) (by decide)⟩

/-- C5: for positive axis extents and `start ≤ end`, after any number of passes
of `while (start < end) nd_iterator_jump(...)` begun at the decoding of
`start`, the coordinate is what `nd_iterator_init` returns for the updated
`start`; `start` stays within `[start, end]`, strictly increases with every
jump and reaches `end` after at most `end - start` passes; the planning loop
body moves `start` and the coordinate by exactly this jump. A jump that
exhausts the innermost axis resets `mb_s` to `0` and increments the next
axis (modulo its extent). -/
theorem nd_iterator_jump_walk_decodes (e : Extents) (he : e.positive) (start end_ : Nat)
    (hle : start ≤ end_) :
    (∀ k, (jump_walk e end_ k start).2 = nd_iterator_init (jump_walk e end_ k start).1 e ∧
      start ≤ (jump_walk e end_ k start).1 ∧ (jump_walk e end_ k start).1 ≤ end_) ∧
    (∀ k, (jump_walk e end_ k start).1 < end_ →
      (jump_walk e end_ k start).1 < (jump_walk e end_ (k + 1) start).1 ∧
      jump_walk e end_ (k + 1) start
        = nd_iterator_jump (jump_walk e end_ k start).1 end_ (jump_walk e end_ k start).2 e) ∧
    (jump_walk e end_ (end_ - start) start).1 = end_ ∧
    (∀ s : plan_state, ((plan_iter e end_ s).start, (plan_iter e end_ s).c)
      = nd_iterator_jump s.start end_ s.c e) ∧
    (∀ s, s < end_ → e.mb_block - s % e.mb_block ≤ end_ - s →
      (nd_iterator_jump s end_ (nd_iterator_init s e) e).1
        = s + (e.mb_block - s % e.mb_block) ∧
      (nd_iterator_jump s end_ (nd_iterator_init s e) e).2.mb_s = 0 ∧
      (nd_iterator_jump s end_ (nd_iterator_init s e) e).2.ocb
        = ((nd_iterator_init s e).ocb + 1) % e.oc_iters) := by
  refine ⟨?_, ?_, ?_, ?_, ?_⟩
  · intro k
    obtain ⟨h1, h2, h3, _⟩ := jump_walk_spec e he start end_ hle k
    exact ⟨h1, h2, h3⟩
  · intro k hk
    obtain ⟨h1, _, h3, _⟩ := jump_walk_spec e he start end_ hle k
    obtain ⟨_, _, j3, _⟩ := jump_step_spec e he end_ (jump_walk e end_ k start) h1 h3
    rw [jump_walk_succ]
    refine ⟨j3 hk, ?_⟩
    simp only [jump_step, if_pos hk]
  · obtain ⟨_, _, h3, h4⟩ := jump_walk_spec e he start end_ hle (end_ - start)
    omega
  · intro s
    rfl
  · intro s hs hj
    simp only [nd_iterator_jump, nd_iterator_jump_last, nd_iterator_init,
      nd_iterator_init_axis, if_pos hj, nd_iterator_jump_axis, if_true]
    exact ⟨trivial, trivial, trivial⟩

theorem nd_iterator_jump_walk_decodes_witness :
    (∀ k, (jump_walk (fwd_extents jcp_example) 24 k 5).2
          = nd_iterator_init (jump_walk (fwd_extents jcp_example) 24 k 5).1
              (fwd_extents jcp_example) ∧
        5 ≤ (jump_walk (fwd_extents jcp_example) 24 k 5).1 ∧
        (jump_walk (fwd_extents jcp_example) 24 k 5).1 ≤ 24) ∧
    (jump_walk (fwd_extents jcp_example) 24 (24 - 5) 5).1 = 24 ∧
    ((nd_iterator_jump 5 24 (nd_iterator_init 5 (fwd_extents jcp_example))
          (fwd_extents jcp_example)).1 = 5 + (2 - 5 % 2) ∧
      (nd_iterator_jump 5 24 (nd_iterator_init 5 (fwd_extents jcp_example))
          (fwd_extents jcp_example)).2.mb_s = 0 ∧
      (nd_iterator_jump 5 24 (nd_iterator_init 5 (fwd_extents jcp_example))
          (fwd_extents jcp_example)).2.ocb
        = ((nd_iterator_init 5 (fwd_extents jcp_example)).ocb + 1) % 3) :=
  ⟨(nd_iterator_jump_walk_decodes (fwd_extents jcp_example) (by decide) 5 24 (by decide)).1,
   (nd_iterator_jump_walk_decodes (fwd_extents jcp_example) (by decide) 5 24 (by decide)).2.2.1,
   (nd_iterator_jump_walk_decodes (fwd_extents jcp_example) (by decide) 5 24
     (by decide)).2.2.2.2 5 (by decide) (by decide)⟩

/-! ## Claims on the padded bias -/

/-- C6: when a padded bias is wanted and the allocation returns `j.oc`
elements, the forward constructor leaves a padded-bias buffer of `j.oc`
elements whose elements at the indices `[oc_without_padding, oc)` are `0`; when
no padded bias is wanted the buffer stays null. -/
theorem padded_bias_tail_zero {α : Type} [Zero α] (want_padded_bias : Bool)
    (j : jit_conv_conf_t) (fresh inputs_bias : List α) (hfresh : fresh.length = j.oc) :
    (want_padded_bias = true →
      ∃ padded_bias_, fwd_ctor_padded_bias want_padded_bias j fresh inputs_bias
          = some padded_bias_ ∧
        padded_bias_.length = j.oc ∧
        ∀ oc, j.oc_without_padding ≤ oc → oc < j.oc → padded_bias_[oc]? = some 0) ∧
    (want_padded_bias = false →
      fwd_ctor_padded_bias want_padded_bias j fresh inputs_bias = none) := by
  obtain ⟨h1, h2⟩ := zero_tail_spec fresh j.oc_without_padding j.oc
  constructor
  · intro hw
    refine ⟨zero_tail fresh j.oc_without_padding j.oc, ?_, by rw [h1, hfresh], ?_⟩
    · simp [fwd_ctor_padded_bias, hw]
    · intro oc hlo hhi
      rw [h2 oc, if_pos ⟨hlo, hhi, by omega⟩]
  · intro hw
    simp [fwd_ctor_padded_bias, hw]

theorem padded_bias_tail_zero_witness :
    (∃ padded_bias_, fwd_ctor_padded_bias true jcp_oc2 ([7, 7] : List Int) [1, 2]
        = some padded_bias_ ∧
      padded_bias_.length = jcp_oc2.oc ∧
      ∀ oc, jcp_oc2.oc_without_padding ≤ oc → oc < jcp_oc2.oc → padded_bias_[oc]? = some 0) ∧
    fwd_ctor_padded_bias false jcp_oc2 ([7, 7] : List Int) [1, 2] = none :=
  ⟨(padded_bias_tail_zero true jcp_oc2 ([7, 7] : List Int) [1, 2] (by decide)).1 rfl,
   (padded_bias_tail_zero false jcp_oc2 ([7, 7] : List Int) [1, 2] (by decide)).2 rfl⟩

/-- C7, as stated, fails: with one real channel out of two, storage that
comes back from the allocation holding `7, 7` and a caller bias `1, 2`, the
constructor leaves `7, 0`; element `0` is not the caller's `1`. -/
theorem padded_bias_prefix_not_bias :
    fwd_ctor_padded_bias true jcp_oc2 ([7, 7] : List Int) [1, 2] = some [7, 0] ∧
    ¬ (∀ padded_bias_, fwd_ctor_padded_bias true jcp_oc2 ([7, 7] : List Int) [1, 2]
          = some padded_bias_ →
        ∀ oc, oc < jcp_oc2.oc_without_padding →
          padded_bias_[oc]? = ([1, 2] : List Int)[oc]?) := by
  refine ⟨by decide, fun h => ?_⟩
  have h0 := h [7, 0] (by decide) 0 (by decide)
  revert h0
  decide

/-- C7, amended: when a padded bias is wanted and the allocation returns
`j.oc` elements (in particular when `oc_without_padding < oc`), after
construction the elements at
the indices `[0, oc_without_padding)` of the padded-bias buffer are the ones
the allocation returned, whatever the caller's bias is: the constructor
writes the tail only. -/
theorem padded_bias_prefix_untouched {α : Type} [Zero α] (j : jit_conv_conf_t)
    (fresh inputs_bias : List α) (hfresh : fresh.length = j.oc) :
    ∃ padded_bias_, fwd_ctor_padded_bias true j fresh inputs_bias = some padded_bias_ ∧
      padded_bias_.length = j.oc ∧
      (∀ oc, oc < j.oc_without_padding → padded_bias_[oc]? = fresh[oc]?) ∧
      (∀ other_bias, fwd_ctor_padded_bias true j fresh other_bias = some padded_bias_) := by
  obtain ⟨h1, h2⟩ := zero_tail_spec fresh j.oc_without_padding j.oc
  refine ⟨zero_tail fresh j.oc_without_padding j.oc, ?_, by rw [h1, hfresh], ?_, ?_⟩
  · simp [fwd_ctor_padded_bias]
  · intro oc hoc
    rw [h2 oc, if_neg (by omega)]
  · intro _
    simp [fwd_ctor_padded_bias]

theorem padded_bias_prefix_untouched_witness :
    ∃ padded_bias_, fwd_ctor_padded_bias true jcp_oc2 ([7, 7] : List Int) [1, 2]
        = some padded_bias_ ∧
      padded_bias_.length = jcp_oc2.oc ∧
      (∀ oc, oc < jcp_oc2.oc_without_padding → padded_bias_[oc]? = ([7, 7] : List Int)[oc]?) ∧
      (∀ other_bias, fwd_ctor_padded_bias true jcp_oc2 ([7, 7] : List Int) other_bias
        = some padded_bias_) :=
  padded_bias_prefix_untouched jcp_oc2 ([7, 7] : List Int) [1, 2] (by decide)

/-! ## Claims on the primitive descriptors -/

/-- C8, as stated, fails: for a 5-D problem on the mixed integer types
(diff_dst s16, weights s16, diff_src s32) `wei_format` returns `OIhw8o16i2o`,
which is not a depth-extended layout. -/
theorem bwd_data_wei_format_s16_5d_not_dhw :
    bwd_data_s16_5d.ndims = 5 ∧
    mixed_s16_s32 data_type_t.s16 data_type_t.s16 data_type_t.s32 ∧
    bwd_data_s16_5d.wei_format data_type_t.s16 data_type_t.s16 data_type_t.s32
      = memory_format_t.OIhw8o16i2o ∧
    (bwd_data_s16_5d.wei_format data_type_t.s16 data_type_t.s16
      data_type_t.s32).depth_extended = false := by
  decide

/-- C8, amended: for the mixed integer combination (diff_dst s16, weights s16,
diff_src s32) `wei_format` returns the interleaved 8o16i2o layout, and that
is the `hw` format (`gOIhw8o16i2o` with groups, `OIhw8o16i2o` without)
whatever the dimensionality; for every other combination it returns the flat
16o16i layout, `(g)OIhw16o16i` for 4-D and the depth-extended `(g)OIdhw16o16i`
otherwise; `src_format` is `nChw16c` for 4-D and `nCdhw16c` otherwise. The
selection depends only on the declared data types, the dimensionality and
the presence of a groups dimension. -/
theorem bwd_data_default_formats (diff_dst_type wei_type diff_src_type : data_type_t)
    (pd : bwd_data_pd_t) :
    (mixed_s16_s32 diff_dst_type wei_type diff_src_type →
      pd.wei_format diff_dst_type wei_type diff_src_type
        = (if pd.with_groups then memory_format_t.gOIhw8o16i2o
           else memory_format_t.OIhw8o16i2o) ∧
      (pd.wei_format diff_dst_type wei_type diff_src_type).block_layout
        = some block_layout_t.interleaved_8o16i2o ∧
      (pd.wei_format diff_dst_type wei_type diff_src_type).depth_extended = false) ∧
    (¬ mixed_s16_s32 diff_dst_type wei_type diff_src_type →
      (pd.wei_format diff_dst_type wei_type diff_src_type).block_layout
        = some block_layout_t.flat_16o16i ∧
      (pd.ndims = 4 →
        pd.wei_format diff_dst_type wei_type diff_src_type
          = (if pd.with_groups then memory_format_t.gOIhw16o16i
             else memory_format_t.OIhw16o16i)) ∧
      (pd.ndims ≠ 4 →
        pd.wei_format diff_dst_type wei_type diff_src_type
          = (if pd.with_groups then memory_format_t.gOIdhw16o16i
             else memory_format_t.OIdhw16o16i)) ∧
      ((pd.wei_format diff_dst_type wei_type diff_src_type).depth_extended = true
        ↔ pd.ndims ≠ 4)) ∧
    (pd.ndims = 4 → pd.src_format = memory_format_t.nChw16c) ∧
    (pd.ndims ≠ 4 → pd.src_format = memory_format_t.nCdhw16c) ∧
    (∀ pd' : bwd_data_pd_t, pd'.ndims = pd.ndims → pd'.with_groups = pd.with_groups →
      pd'.wei_format diff_dst_type wei_type diff_src_type
        = pd.wei_format diff_dst_type wei_type diff_src_type ∧
      pd'.src_format = pd.src_format) := by
  refine ⟨?_, ?_, ?_, ?_, ?_⟩
  · rintro ⟨h1, h2, h3⟩
    subst h1 h2 h3
    cases hg : pd.with_groups <;>
      simp [bwd_data_pd_t.wei_format, hg, memory_format_t.block_layout,
        memory_format_t.depth_extended]
  · intro hm
    have hc : ¬ (diff_dst_type = data_type_t.s16 ∧ diff_src_type = data_type_t.s32
        ∧ wei_type = data_type_t.s16) := by
      intro h
      exact hm ⟨h.1, h.2.2, h.2.1⟩
    by_cases hn : pd.ndims = 4 <;> cases hg : pd.with_groups <;>
      simp [bwd_data_pd_t.wei_format, hc, hn, hg, memory_format_t.block_layout,
        memory_format_t.depth_extended]
  · intro hn
    simp [bwd_data_pd_t.src_format, hn]
  · intro hn
    simp [bwd_data_pd_t.src_format, hn]
  · intro pd' h1 h2
    constructor <;> simp only [bwd_data_pd_t.wei_format, bwd_data_pd_t.src_format, h1, h2]

theorem bwd_data_default_formats_witness :
    (bwd_data_s16_5d.wei_format data_type_t.s16 data_type_t.s16 data_type_t.s32
        = (if bwd_data_s16_5d.with_groups then memory_format_t.gOIhw8o16i2o
           else memory_format_t.OIhw8o16i2o) ∧
      (bwd_data_s16_5d.wei_format data_type_t.s16 data_type_t.s16
        data_type_t.s32).block_layout = some block_layout_t.interleaved_8o16i2o ∧
      (bwd_data_s16_5d.wei_format data_type_t.s16 data_type_t.s16
        data_type_t.s32).depth_extended = false) ∧
    (bwd_data_f32_4d.wei_format data_type_t.f32 data_type_t.f32 data_type_t.f32).block_layout
      = some block_layout_t.flat_16o16i ∧
    bwd_data_f32_4d.src_format = memory_format_t.nChw16c ∧
    bwd_data_s16_5d.src_format = memory_format_t.nCdhw16c :=
  ⟨(bwd_data_default_formats data_type_t.s16 data_type_t.s16 data_type_t.s32
      bwd_data_s16_5d).1 (by decide),
   ((bwd_data_default_formats data_type_t.f32 data_type_t.f32 data_type_t.f32
      bwd_data_f32_4d).2.1 (by decide)).1,
   (bwd_data_default_formats data_type_t.f32 data_type_t.f32 data_type_t.f32
      bwd_data_f32_4d).2.2.1 (by decide),
   (bwd_data_default_formats data_type_t.s16 data_type_t.s16 data_type_t.s32
      bwd_data_s16_5d).2.2.2.1 (by decide)⟩

/-- C9, as stated, fails for the backward-data `init`: on a 5-D problem of the
mixed integer types with undecided layouts, none of the listed rejection
conditions holds and the kernel's `init_conf` would answer `success`, yet
`init` returns `unimplemented`, because `set_default_params` does not return
`success` (the 4-D weights format is refused for the 5-D weights). -/
theorem bwd_data_pd_init_not_init_conf :
    ¬ bwd_data_rejected data_type_t.s16 data_type_t.s16 data_type_t.s32 bwd_data_s16_5d ∧
    (bwd_data_s16_5d.set_default_params data_type_t.s16 data_type_t.s16 data_type_t.s32
      set_format_by_rank).1 = status_t.invalid_arguments ∧
    (bwd_data_pd_init data_type_t.s16 data_type_t.s16 data_type_t.s32 set_format_by_rank
      (fun _ => status_t.success) bwd_data_s16_5d).1 = status_t.unimplemented ∧
    ¬ (¬ bwd_data_rejected data_type_t.s16 data_type_t.s16 data_type_t.s32 bwd_data_s16_5d →
        (bwd_data_pd_init data_type_t.s16 data_type_t.s16 data_type_t.s32 set_format_by_rank
          (fun _ => status_t.success) bwd_data_s16_5d).1
        = (fun _ => status_t.success)
            (bwd_data_pd_init data_type_t.s16 data_type_t.s16 data_type_t.s32
              set_format_by_rank (fun _ => status_t.success) bwd_data_s16_5d).2) := by
  decide

/-- C9, amended: each `init` returns `unimplemented` whenever the propagation
kind is not the one of its pass, or the algorithm is not `convolution_direct`,
or a tensor has a zero dimension, or one of the three tensor data types
differs from the template's; the forward one also on a bias of another type
than the destination and on a fused ReLU with non-zero negative slope on
s16/s16/s32; the backward-data one also whenever `set_default_params` does not
return `success`. When none of these hold, `init` returns exactly the status
of the kernel's `init_conf` (for backward data, on the descriptor as
`set_default_params` left it). -/
theorem pd_init_status (with_relu : Bool) (src_type wei_type dst_type : data_type_t)
    (fwd_init_conf : fwd_pd_t → status_t) (fpd : fwd_pd_t)
    (diff_dst_type bwd_wei_type diff_src_type : data_type_t)
    (set_format : memory_desc_t → memory_format_t → status_t × memory_desc_t)
    (bwd_data_init_conf : bwd_data_pd_t → status_t) (dpd : bwd_data_pd_t)
    (bww_src_type bww_diff_dst_type diff_weights_type : data_type_t)
    (bwd_weights_init_conf : bwd_weights_pd_t → status_t) (wpd : bwd_weights_pd_t) :
    ((fwd_rejected with_relu src_type wei_type dst_type fpd →
        fwd_pd_init with_relu src_type wei_type dst_type fwd_init_conf fpd
          = status_t.unimplemented) ∧
      (¬ fwd_rejected with_relu src_type wei_type dst_type fpd →
        fwd_pd_init with_relu src_type wei_type dst_type fwd_init_conf fpd
          = fwd_init_conf fpd)) ∧
    (((dpd.set_default_params diff_dst_type bwd_wei_type diff_src_type set_format).1
          ≠ status_t.success
        ∨ bwd_data_rejected diff_dst_type bwd_wei_type diff_src_type dpd →
        (bwd_data_pd_init diff_dst_type bwd_wei_type diff_src_type set_format
          bwd_data_init_conf dpd).1 = status_t.unimplemented) ∧
      ((dpd.set_default_params diff_dst_type bwd_wei_type diff_src_type set_format).1
          = status_t.success →
        ¬ bwd_data_rejected diff_dst_type bwd_wei_type diff_src_type dpd →
        (bwd_data_pd_init diff_dst_type bwd_wei_type diff_src_type set_format
          bwd_data_init_conf dpd).1
        = bwd_data_init_conf
            (dpd.set_default_params diff_dst_type bwd_wei_type diff_src_type set_format).2)) ∧
    ((bwd_weights_rejected bww_src_type bww_diff_dst_type diff_weights_type wpd →
        bwd_weights_pd_init bww_src_type bww_diff_dst_type diff_weights_type
          bwd_weights_init_conf wpd = status_t.unimplemented) ∧
      (¬ bwd_weights_rejected bww_src_type bww_diff_dst_type diff_weights_type wpd →
        bwd_weights_pd_init bww_src_type bww_diff_dst_type diff_weights_type
          bwd_weights_init_conf wpd = bwd_weights_init_conf wpd)) := by
  refine ⟨⟨?_, ?_⟩, ⟨?_, ?_⟩, ⟨?_, ?_⟩⟩
  · intro h
    rw [fwd_pd_init_eq, if_pos h]
  · intro h
    rw [fwd_pd_init_eq, if_neg h]
  · intro h
    rw [bwd_data_pd_init_eq, if_pos h]
  · intro h1 h2
    rw [bwd_data_pd_init_eq, if_neg]
    intro h
    rcases h with h | h
    · exact h h1
    · exact h2 h
  · intro h
    rw [bwd_weights_pd_init_eq, if_pos h]
  · intro h
    rw [bwd_weights_pd_init_eq, if_neg h]

theorem pd_init_status_witness :
    fwd_pd_init false data_type_t.f32 data_type_t.f32 data_type_t.f32
      (fun _ => status_t.success) fwd_f32_4d = status_t.success ∧
    (bwd_data_pd_init data_type_t.s16 data_type_t.s16 data_type_t.s32 set_format_by_rank
      (fun _ => status_t.success) bwd_data_s16_5d).1 = status_t.unimplemented ∧
    bwd_weights_pd_init data_type_t.f32 data_type_t.f32 data_type_t.f32
      (fun _ => status_t.success) bwd_weights_f32_4d = status_t.success ∧
    (bwd_data_pd_init data_type_t.f32 data_type_t.f32 data_type_t.f32 set_format_by_rank
      (fun _ => status_t.success) bwd_data_f32_4d).1 = status_t.success ∧
    fwd_pd_init false data_type_t.s16 data_type_t.f32 data_type_t.f32
      (fun _ => status_t.success) fwd_f32_4d = status_t.unimplemented ∧
    bwd_weights_pd_init data_type_t.s16 data_type_t.f32 data_type_t.f32
      (fun _ => status_t.success) bwd_weights_f32_4d = status_t.unimplemented :=
  ⟨(pd_init_status false data_type_t.f32 data_type_t.f32 data_type_t.f32
      (fun _ => status_t.success) fwd_f32_4d
      data_type_t.s16 data_type_t.s16 data_type_t.s32 set_format_by_rank
      (fun _ => status_t.success) bwd_data_s16_5d
      data_type_t.f32 data_type_t.f32 data_type_t.f32
      (fun _ => status_t.success) bwd_weights_f32_4d).1.2 (by decide),
   (pd_init_status false data_type_t.f32 data_type_t.f32 data_type_t.f32
      (fun _ => status_t.success) fwd_f32_4d
      data_type_t.s16 data_type_t.s16 data_type_t.s32 set_format_by_rank
      (fun _ => status_t.success) bwd_data_s16_5d
      data_type_t.f32 data_type_t.f32 data_type_t.f32
      (fun _ => status_t.success) bwd_weights_f32_4d).2.1.1 (Or.inl (by decide)),
   (pd_init_status false data_type_t.f32 data_type_t.f32 data_type_t.f32
      (fun _ => status_t.success) fwd_f32_4d
      data_type_t.s16 data_type_t.s16 data_type_t.s32 set_format_by_rank
      (fun _ => status_t.success) bwd_data_s16_5d
      data_type_t.f32 data_type_t.f32 data_type_t.f32
      (fun _ => status_t.success) bwd_weights_f32_4d).2.2.2 (by decide),
   (pd_init_status false data_type_t.s16 data_type_t.f32 data_type_t.f32
      (fun _ => status_t.success) fwd_f32_4d
      data_type_t.f32 data_type_t.f32 data_type_t.f32 set_format_by_rank
      (fun _ => status_t.success) bwd_data_f32_4d
      data_type_t.s16 data_type_t.f32 data_type_t.f32
      (fun _ => status_t.success) bwd_weights_f32_4d).2.1.2 (by decide) (by decide),
   (pd_init_status false data_type_t.s16 data_type_t.f32 data_type_t.f32
      (fun _ => status_t.success) fwd_f32_4d
      data_type_t.f32 data_type_t.f32 data_type_t.f32 set_format_by_rank
      (fun _ => status_t.success) bwd_data_f32_4d
      data_type_t.s16 data_type_t.f32 data_type_t.f32
      (fun _ => status_t.success) bwd_weights_f32_4d).1.1 (by decide),
   (pd_init_status false data_type_t.s16 data_type_t.f32 data_type_t.f32
      (fun _ => status_t.success) fwd_f32_4d
      data_type_t.f32 data_type_t.f32 data_type_t.f32 set_format_by_rank
      (fun _ => status_t.success) bwd_data_f32_4d
      data_type_t.s16 data_type_t.f32 data_type_t.f32
      (fun _ => status_t.success) bwd_weights_f32_4d).2.2.1 (by decide)⟩

/-! ### Chunks inside one minibatch block -/

/-- Indices from `start` up to the end of its innermost-axis block share the
quotient by the extent, and their remainder grows with the index. -/
theorem same_block_div_mod (X start i : Nat) (hX : 0 < X) (h1 : start ≤ i)
    (h2 : i < start + (X - start % X)) :
    i / X = start / X ∧ i % X = start % X + (i - start) := by
  have hdm := Nat.div_add_mod' start X
  have hlt := Nat.mod_lt start hX
  obtain ⟨k, rfl⟩ : ∃ k, i = start + k := ⟨i - start, by omega⟩
  have hsmall : start % X + k < X := by omega
  have e1 : start + k = start / X * X + (start % X + k) := by omega
  rw [Nat.add_sub_cancel_left]
  constructor
  · rw [e1, mul_add_div_eq _ _ _ hsmall]
  · rw [e1, mul_add_mod_eq _ _ _ hsmall]

/-- Indices with the same quotient by `mb_block` decode to the same `g`,
`mbb`, `oh` and `ocb`. -/
theorem nd_iterator_init_same_block (e : Extents) (i k : Nat)
    (h : i / e.mb_block = k / e.mb_block) :
    (nd_iterator_init i e).g = (nd_iterator_init k e).g ∧
    (nd_iterator_init i e).mbb = (nd_iterator_init k e).mbb ∧
    (nd_iterator_init i e).oh = (nd_iterator_init k e).oh ∧
    (nd_iterator_init i e).ocb = (nd_iterator_init k e).ocb := by
  simp only [nd_iterator_init, nd_iterator_init_axis, h]
  exact ⟨trivial, trivial, trivial, trivial⟩

/-- The decoding of an index of the chunk that begins at `start`. -/
theorem nd_iterator_init_in_chunk (e : Extents) (hmb : 0 < e.mb_block) (start i : Nat)
    (h1 : start ≤ i) (h2 : i < start + (e.mb_block - start % e.mb_block)) :
    (nd_iterator_init i e).g = (nd_iterator_init start e).g ∧
    (nd_iterator_init i e).mbb = (nd_iterator_init start e).mbb ∧
    (nd_iterator_init i e).oh = (nd_iterator_init start e).oh ∧
    (nd_iterator_init i e).ocb = (nd_iterator_init start e).ocb ∧
    (nd_iterator_init i e).mb_s = (nd_iterator_init start e).mb_s + (i - start) := by
  obtain ⟨hd, hm⟩ := same_block_div_mod e.mb_block start i hmb h1 h2
  obtain ⟨a, b, c, d⟩ := nd_iterator_init_same_block e i start hd
  exact ⟨a, b, c, d, hm⟩

/-- The minibatch end offset one iteration records, and the start it leaves,
for a state whose minibatch offset is that of the decoding of `start`. -/
theorem plan_iter_mb (e : Extents) (hmb : 0 < e.mb_block) (end_ : Nat) (s : plan_state)
    (hc : s.c.mb_s = s.start % e.mb_block) (h : s.start < end_) :
    (plan_iter e end_ s).p.mb.2 = min (s.c.mb_s + (end_ - s.start)) e.mb_block ∧
    (plan_iter e end_ s).p.mb.2 - s.c.mb_s
      = min (end_ - s.start) (e.mb_block - s.start % e.mb_block) ∧
    (plan_iter e end_ s).start
      = s.start + min (end_ - s.start) (e.mb_block - s.start % e.mb_block) ∧
    (plan_iter e end_ s).chunks
      = s.chunks ++ [(s.start, (plan_iter e end_ s).p.mb.2 - s.c.mb_s)] := by
  have hlt := Nat.mod_lt s.start hmb
  have hj := (nd_iterator_jump_last_spec s.start end_ e.mb_block hmb h).1
  have h1 : (plan_iter e end_ s).p.mb.2
      = if s.c.mb_s + (end_ - s.start) > e.mb_block then e.mb_block
        else s.c.mb_s + (end_ - s.start) := rfl
  have h2 : (plan_iter e end_ s).start
      = (nd_iterator_jump_last s.start end_ s.c.mb_s e.mb_block).1 := rfl
  have h3 : (plan_iter e end_ s).chunks
      = s.chunks ++ [(s.start, (plan_iter e end_ s).p.mb.2 - s.c.mb_s)] := rfl
  refine ⟨?_, ?_, ?_, h3⟩
  · rw [h1]
    split <;> omega
  · rw [h1, hc]
    exact chunk_length_eq _ _ _ hlt
  · rw [h2, hc, hj]

/-- With at least `end - start` iterations allowed the loop ends, after at
most `end - start` iterations, and the chunks it adds are non-empty, lie in
`[start, end)` and each ends before the next begins. -/
theorem plan_loop_chunks (e : Extents) (he : e.positive) (end_ : Nat) :
    ∀ (fuel : Nat) (s : plan_state), s.c = nd_iterator_init s.start e →
      s.start ≤ end_ → end_ - s.start ≤ fuel →
      ∃ s' new, plan_loop e end_ fuel s = some s' ∧ s'.start = end_ ∧
        s'.chunks = s.chunks ++ new ∧ new.length ≤ end_ - s.start ∧
        (∀ ch, ch ∈ new → 0 < ch.2 ∧ s.start ≤ ch.1 ∧ ch.1 + ch.2 ≤ end_) ∧
        List.Pairwise (fun a b => a.1 + a.2 ≤ b.1) new := by
  intro fuel
  induction fuel with
  | zero =>
    intro s _ hle hf
    have hs : s.start = end_ := by omega
    refine ⟨s, [], ?_, hs, by simp, by simp, by simp, List.Pairwise.nil⟩
    simp [plan_loop, hs]
  | succ fuel ih =>
    intro s hc hle hf
    by_cases hlt : s.start < end_
    · obtain ⟨h1, h2, h3, h4, h5⟩ := plan_iter_spec e he end_ s hc hlt
      obtain ⟨s', new, r1, r2, r3, r4, r5, r6⟩ := ih (plan_iter e end_ s) h2 h5 (by omega)
      refine ⟨s', (s.start, min (end_ - s.start) (e.mb_block - s.start % e.mb_block)) :: new,
        ?_, r2, ?_, ?_, ?_, ?_⟩
      · simp only [plan_loop, if_pos hlt]
        exact r1
      · rw [r3, h3, List.append_assoc]
        rfl
      · rw [List.length_cons]
        omega
      · intro ch hch
        rcases List.mem_cons.mp hch with h | h
        · subst h
          refine ⟨?_, Nat.le_refl _, ?_⟩
          · show 0 < min (end_ - s.start) (e.mb_block - s.start % e.mb_block)
            omega
          · show s.start + min (end_ - s.start) (e.mb_block - s.start % e.mb_block) ≤ end_
            omega
        · obtain ⟨c1, c2, c3⟩ := r5 ch h
          exact ⟨c1, by omega, c3⟩
      · refine List.Pairwise.cons ?_ r6
        intro b hb
        obtain ⟨_, c2, _⟩ := r5 b hb
        show s.start + min (end_ - s.start) (e.mb_block - s.start % e.mb_block) ≤ b.1
        omega
    · have hs : s.start = end_ := by omega
      refine ⟨s, [], ?_, hs, by simp, by simp, by simp, List.Pairwise.nil⟩
      simp [plan_loop, hlt]

/-- After one iteration the look-ahead snapshot describes the last flat index
of the chunk just recorded, and the current snapshot is as before. -/
theorem plan_iter_lookahead (e : Extents) (hmb : 0 < e.mb_block) (end_ : Nat)
    (s : plan_state) (hc : s.c = nd_iterator_init s.start e) (h : s.start < end_) :
    lookahead_of e (plan_iter e end_ s).p ((plan_iter e end_ s).start - 1) ∧
    (plan_iter e end_ s).p.current = s.p.current := by
  have hms : s.c.mb_s = s.start % e.mb_block := by
    rw [hc]
    rfl
  have hlt := Nat.mod_lt s.start hmb
  obtain ⟨m1, m2, m3, _⟩ := plan_iter_mb e hmb end_ s hms h
  have hlast1 : s.start ≤ (plan_iter e end_ s).start - 1 := by omega
  have hlast2 : (plan_iter e end_ s).start - 1
      < s.start + (e.mb_block - s.start % e.mb_block) := by omega
  obtain ⟨d1, d2, d3, d4, d5⟩ :=
    nd_iterator_init_in_chunk e hmb s.start ((plan_iter e end_ s).start - 1) hlast1 hlast2
  rw [← hc] at d1 d2 d3 d4 d5
  refine ⟨⟨d1.symm, d2.symm, d3.symm, d4.symm, ?_⟩, rfl⟩
  rw [d5, m1]
  omega

/-- At the end of the loop the current snapshot is as at its beginning; if
the loop ran at all, the look-ahead snapshot describes `end - 1`; otherwise
nothing has changed. -/
theorem plan_loop_lookahead (e : Extents) (he : e.positive) (end_ : Nat) :
    ∀ (fuel : Nat) (s : plan_state), s.c = nd_iterator_init s.start e →
      s.start ≤ end_ → end_ - s.start ≤ fuel →
      ∃ s', plan_loop e end_ fuel s = some s' ∧ s'.start = end_ ∧
        s'.p.current = s.p.current ∧
        (s.start < end_ → lookahead_of e s'.p (end_ - 1)) ∧
        (¬ s.start < end_ → s' = s) := by
  intro fuel
  induction fuel with
  | zero =>
    intro s _ hle hf
    have hs : s.start = end_ := by omega
    have hn : ¬ s.start < end_ := by omega
    refine ⟨s, ?_, hs, rfl, fun h => absurd h hn, fun _ => rfl⟩
    simp [plan_loop, hs]
  | succ fuel ih =>
    intro s hc hle hf
    by_cases hlt : s.start < end_
    · obtain ⟨_, h2, _, h4, h5⟩ := plan_iter_spec e he end_ s hc hlt
      obtain ⟨l1, l2⟩ := plan_iter_lookahead e he.2.2.2.2 end_ s hc hlt
      obtain ⟨s', r1, r2, r3, r4, r5⟩ := ih (plan_iter e end_ s) h2 h5 (by omega)
      refine ⟨s', ?_, r2, r3.trans l2, ?_, fun h => absurd hlt h⟩
      · simp only [plan_loop, if_pos hlt]
        exact r1
      · intro _
        by_cases hnext : (plan_iter e end_ s).start < end_
        · exact r4 hnext
        · have hend : (plan_iter e end_ s).start = end_ := by omega
          rw [r5 hnext]
          have l1' := l1
          rw [hend] at l1'
          exact l1'
    · have hs : s.start = end_ := by omega
      refine ⟨s, ?_, hs, rfl, fun h => absurd h hlt, fun _ => rfl⟩
      simp [plan_loop, hlt]

/-- A loop that ends within a bound ends, in the same state, within any
larger bound. -/
theorem plan_loop_succ_fuel (e : Extents) (end_ : Nat) :
    ∀ (fuel : Nat) (s s' : plan_state), plan_loop e end_ fuel s = some s' →
      plan_loop e end_ (fuel + 1) s = some s' := by
  intro fuel
  induction fuel with
  | zero =>
    intro s s' h
    by_cases hlt : s.start < end_
    · simp [plan_loop, hlt] at h
    · simp only [plan_loop, if_neg hlt] at h
      simp only [plan_loop, if_neg hlt]
      exact h
  | succ fuel ih =>
    intro s s' h
    by_cases hlt : s.start < end_
    · simp only [plan_loop, if_pos hlt] at h
      have h' := ih (plan_iter e end_ s) s' h
      rw [plan_loop, if_pos hlt]
      exact h'
    · simp only [plan_loop, if_neg hlt] at h
      simp only [plan_loop, if_neg hlt]
      exact h

theorem plan_loop_more_fuel (e : Extents) (end_ : Nat) :
    ∀ (k fuel : Nat) (s s' : plan_state), plan_loop e end_ fuel s = some s' →
      plan_loop e end_ (fuel + k) s = some s' := by
  intro k
  induction k with
  | zero =>
    intro fuel s s' h
    exact h
  | succ k ih =>
    intro fuel s s' h
    exact plan_loop_succ_fuel e end_ (fuel + k) s s' (ih fuel s s' h)

/-! ## Claims on single iterations and on termination -/

/-- C12: in an iteration of the planning loops with `mb_block ≥ 1`, the
coordinate equal to the decoding of `start`, and `start < end`, the recorded
`p.mb[1]` is `min(mb_s + (end - start), mb_block)` and satisfies
`mb_s < p.mb[1] ≤ mb_block`; the chunk length `p.mb[1] - mb_s` equals
`min(end - start, mb_block - mb_s)`, which is the amount by which the
following `nd_iterator_jump` advances `start`; and every flat index of the
chunk decodes to the `g`, `mbb`, `oh`, `ocb` of the chunk's first index, with
the minibatch offset counting up from `mb_s`. -/
theorem plan_iter_chunk_in_block (e : Extents) (hmb : 1 ≤ e.mb_block) (end_ : Nat)
    (s : plan_state) (hc : s.c = nd_iterator_init s.start e) (h : s.start < end_) :
    (plan_iter e end_ s).p.mb.2 = min (s.c.mb_s + (end_ - s.start)) e.mb_block ∧
    s.c.mb_s < (plan_iter e end_ s).p.mb.2 ∧
    (plan_iter e end_ s).p.mb.2 ≤ e.mb_block ∧
    (plan_iter e end_ s).p.mb.2 - s.c.mb_s = min (end_ - s.start) (e.mb_block - s.c.mb_s) ∧
    (nd_iterator_jump s.start end_ s.c e).1
      = s.start + ((plan_iter e end_ s).p.mb.2 - s.c.mb_s) ∧
    (plan_iter e end_ s).start = s.start + ((plan_iter e end_ s).p.mb.2 - s.c.mb_s) ∧
    (plan_iter e end_ s).chunks
      = s.chunks ++ [(s.start, (plan_iter e end_ s).p.mb.2 - s.c.mb_s)] ∧
    (∀ i, s.start ≤ i → i < s.start + ((plan_iter e end_ s).p.mb.2 - s.c.mb_s) →
      (nd_iterator_init i e).g = s.c.g ∧ (nd_iterator_init i e).mbb = s.c.mbb ∧
      (nd_iterator_init i e).oh = s.c.oh ∧ (nd_iterator_init i e).ocb = s.c.ocb ∧
      (nd_iterator_init i e).mb_s = s.c.mb_s + (i - s.start)) := by
  have hmb' : 0 < e.mb_block := hmb
  have hms : s.c.mb_s = s.start % e.mb_block := by
    rw [hc]
    rfl
  have hlt := Nat.mod_lt s.start hmb'
  obtain ⟨m1, m2, m3, m4⟩ := plan_iter_mb e hmb' end_ s hms h
  have hjump : (nd_iterator_jump s.start end_ s.c e).1 = (plan_iter e end_ s).start := rfl
  refine ⟨m1, ?_, ?_, ?_, ?_, ?_, m4, ?_⟩
  · rw [m1]
    omega
  · rw [m1]
    omega
  · rw [m2, hms]
  · rw [hjump, m3, m2]
  · rw [m3, m2]
  · intro i hi1 hi2
    rw [m2] at hi2
    have hi3 : i < s.start + (e.mb_block - s.start % e.mb_block) := by omega
    have hd := nd_iterator_init_in_chunk e hmb' s.start i hi1 hi3
    rw [← hc] at hd
    exact hd

theorem plan_iter_chunk_in_block_witness :
    (plan_iter (fwd_extents jcp_example) 24
        { start := 5, c := nd_iterator_init 5 (fwd_extents jcp_example),
          p := ⟨(0, 0), (0, 0), (0, 0), (0, 0), (0, 0)⟩, chunks := [] }).p.mb.2 = 2 ∧
    (plan_iter (fwd_extents jcp_example) 24
        { start := 5, c := nd_iterator_init 5 (fwd_extents jcp_example),
          p := ⟨(0, 0), (0, 0), (0, 0), (0, 0), (0, 0)⟩, chunks := [] }).start = 6 :=
  ⟨((plan_iter_chunk_in_block (fwd_extents jcp_example) (by decide) 24
      { start := 5, c := nd_iterator_init 5 (fwd_extents jcp_example),
        p := ⟨(0, 0), (0, 0), (0, 0), (0, 0), (0, 0)⟩, chunks := [] } rfl (by decide)).1).trans
      (by decide),
   ((plan_iter_chunk_in_block (fwd_extents jcp_example) (by decide) 24
      { start := 5, c := nd_iterator_init 5 (fwd_extents jcp_example),
        p := ⟨(0, 0), (0, 0), (0, 0), (0, 0), (0, 0)⟩, chunks := [] } rfl
      (by decide)).2.2.2.2.2.1).trans (by decide)⟩

/-- C13: for positive axis extents and a thread range with `start ≤ end`
(the coordinate being the decoding of `start`, as the planning body sets it),
an iteration of `while (start < end)` strictly increases `start`, does not
move it past `end` and keeps the coordinate the decoding of `start`; the loop
therefore ends with `start = end` within `end - start` iterations (any larger
bound gives the same), and the chunks it records are non-empty, inside
`[start, end)`, and each ends at or before the start of every later one:
strictly increasing flat-index order. -/
theorem plan_loop_terminates (e : Extents) (he : e.positive) (end_ : Nat) (s : plan_state)
    (hc : s.c = nd_iterator_init s.start e) (hle : s.start ≤ end_) :
    (s.start < end_ →
      s.start < (plan_iter e end_ s).start ∧ (plan_iter e end_ s).start ≤ end_ ∧
      (plan_iter e end_ s).c = nd_iterator_init (plan_iter e end_ s).start e) ∧
    (∀ fuel, end_ - s.start ≤ fuel →
      ∃ s' new, plan_loop e end_ fuel s = some s' ∧ s'.start = end_ ∧
        s'.chunks = s.chunks ++ new ∧ new.length ≤ end_ - s.start ∧
        (∀ ch, ch ∈ new → 0 < ch.2 ∧ s.start ≤ ch.1 ∧ ch.1 + ch.2 ≤ end_) ∧
        List.Pairwise (fun a b => a.1 + a.2 ≤ b.1) new) ∧
    (∀ fuel, end_ - s.start ≤ fuel →
      plan_loop e end_ fuel s = plan_loop e end_ (end_ - s.start) s) := by
  refine ⟨?_, ?_, ?_⟩
  · intro hlt
    obtain ⟨_, h2, _, h4, h5⟩ := plan_iter_spec e he end_ s hc hlt
    exact ⟨h4, h5, h2⟩
  · intro fuel hf
    exact plan_loop_chunks e he end_ fuel s hc hle hf
  · intro fuel hf
    obtain ⟨s', h1, _⟩ := plan_loop_spec e he end_ (end_ - s.start) s hc hle (Nat.le_refl _)
    obtain ⟨k, rfl⟩ : ∃ k, fuel = (end_ - s.start) + k := ⟨fuel - (end_ - s.start), by omega⟩
    rw [h1]
    exact plan_loop_more_fuel e end_ k (end_ - s.start) s s' h1

theorem plan_loop_terminates_witness :
    ∃ s' new, plan_loop (fwd_extents jcp_example) 24 19
        { start := 5, c := nd_iterator_init 5 (fwd_extents jcp_example),
          p := ⟨(0, 0), (0, 0), (0, 0), (0, 0), (0, 0)⟩, chunks := [] } = some s' ∧
      s'.start = 24 ∧ s'.chunks = [] ++ new ∧ new.length ≤ 24 - 5 ∧
      (∀ ch, ch ∈ new → 0 < ch.2 ∧ 5 ≤ ch.1 ∧ ch.1 + ch.2 ≤ 24) ∧
      List.Pairwise (fun a b => a.1 + a.2 ≤ b.1) new :=
  (plan_loop_terminates (fwd_extents jcp_example) (by decide) 24
    { start := 5, c := nd_iterator_init 5 (fwd_extents jcp_example),
      p := ⟨(0, 0), (0, 0), (0, 0), (0, 0), (0, 0)⟩, chunks := [] } rfl
    (by decide)).2.1 19 (by decide)

/-! ## Claims on the snapshots -/

/-- C16: after the planning body (of the forward or of the backward-data
constructor, both run `plan_thread` on their extents) has run for a thread
with range `[start, end)` over positive axis extents, the "current" snapshot
is the decoding of `start`; if the range is non-empty the "look-ahead"
snapshot, with `mb[1] - 1` for its last component, is the decoding of
`end - 1` (and `mb[1] ≥ 1`); if the range is empty the look-ahead snapshot
equals the current one. -/
theorem plan_thread_snapshots (e : Extents) (he : e.positive) (W nthr ithr fuel : Nat)
    (hf : (balance211 W nthr ithr).2 - (balance211 W nthr ithr).1 ≤ fuel) :
    ∃ s, plan_thread e W nthr ithr fuel = some s ∧
      s.p.current = nd_iterator_init (balance211 W nthr ithr).1 e ∧
      ((balance211 W nthr ithr).1 < (balance211 W nthr ithr).2 →
        1 ≤ s.p.mb.2 ∧
        ({ g := s.p.g.2, mbb := s.p.mbb.2, oh := s.p.oh.2, ocb := s.p.ocb.2,
           mb_s := s.p.mb.2 - 1 } : Coord)
          = nd_iterator_init ((balance211 W nthr ithr).2 - 1) e) ∧
      (¬ (balance211 W nthr ithr).1 < (balance211 W nthr ithr).2 →
        s.p.lookahead = s.p.current) := by
  obtain ⟨s, h1, _, h3, h4, h5⟩ := plan_loop_lookahead e he (balance211 W nthr ithr).2 fuel
    { start := (balance211 W nthr ithr).1,
      c := nd_iterator_init (balance211 W nthr ithr).1 e,
      p := { g := ((nd_iterator_init (balance211 W nthr ithr).1 e).g,
                   (nd_iterator_init (balance211 W nthr ithr).1 e).g),
             mbb := ((nd_iterator_init (balance211 W nthr ithr).1 e).mbb,
                     (nd_iterator_init (balance211 W nthr ithr).1 e).mbb),
             oh := ((nd_iterator_init (balance211 W nthr ithr).1 e).oh,
                    (nd_iterator_init (balance211 W nthr ithr).1 e).oh),
             ocb := ((nd_iterator_init (balance211 W nthr ithr).1 e).ocb,
                     (nd_iterator_init (balance211 W nthr ithr).1 e).ocb),
             mb := ((nd_iterator_init (balance211 W nthr ithr).1 e).mb_s,
                    (nd_iterator_init (balance211 W nthr ithr).1 e).mb_s) },
      chunks := [] }
    rfl (balance211_start_le_end W nthr ithr) hf
  refine ⟨s, h1, ?_, ?_, ?_⟩
  · rw [h3]
    rfl
  · intro hlt
    obtain ⟨a, b, c, d, m⟩ := h4 hlt
    refine ⟨by omega, ?_⟩
    rw [a, b, c, d, m, Nat.add_sub_cancel]
  · intro hn
    rw [h5 hn]
    rfl

theorem plan_thread_snapshots_witness :
    ∃ s, plan_thread (fwd_extents jcp_example) 48 5 1 48 = some s ∧
      s.p.current = nd_iterator_init (balance211 48 5 1).1 (fwd_extents jcp_example) ∧
      ((balance211 48 5 1).1 < (balance211 48 5 1).2 →
        1 ≤ s.p.mb.2 ∧
        ({ g := s.p.g.2, mbb := s.p.mbb.2, oh := s.p.oh.2, ocb := s.p.ocb.2,
           mb_s := s.p.mb.2 - 1 } : Coord)
          = nd_iterator_init ((balance211 48 5 1).2 - 1) (fwd_extents jcp_example)) ∧
      (¬ (balance211 48 5 1).1 < (balance211 48 5 1).2 → s.p.lookahead = s.p.current) :=
  plan_thread_snapshots (fwd_extents jcp_example) (by decide) 48 5 1 48 (by decide)

/-! ### Default layouts -/

/-- Backward data: a memory descriptor whose format is not `any` is left as it
is, whatever `set_default_params` returns. -/
theorem bwd_data_set_default_params_keeps (a b c : data_type_t)
    (set_format : memory_desc_t → memory_format_t → status_t × memory_desc_t)
    (pd : bwd_data_pd_t) :
    (pd.diff_src_pd_.format ≠ memory_format_t.any →
      (pd.set_default_params a b c set_format).2.diff_src_pd_ = pd.diff_src_pd_) ∧
    (pd.diff_dst_pd_.format ≠ memory_format_t.any →
      (pd.set_default_params a b c set_format).2.diff_dst_pd_ = pd.diff_dst_pd_) ∧
    (pd.weights_pd_.format ≠ memory_format_t.any →
      (pd.set_default_params a b c set_format).2.weights_pd_ = pd.weights_pd_) := by
  simp only [bwd_data_pd_t.set_default_params]
  split_ifs <;> simp_all

/-- Backward data: when `set_default_params` returns `success`, every
descriptor that had format `any` is what a successful `set_format` with the
default format left. -/
theorem bwd_data_set_default_params_sets (a b c : data_type_t)
    (set_format : memory_desc_t → memory_format_t → status_t × memory_desc_t)
    (pd : bwd_data_pd_t)
    (h : (pd.set_default_params a b c set_format).1 = status_t.success) :
    (pd.diff_src_pd_.format = memory_format_t.any →
      (set_format pd.diff_src_pd_ pd.src_format).1 = status_t.success ∧
      (pd.set_default_params a b c set_format).2.diff_src_pd_
        = (set_format pd.diff_src_pd_ pd.src_format).2) ∧
    (pd.diff_dst_pd_.format = memory_format_t.any →
      (set_format pd.diff_dst_pd_ pd.src_format).1 = status_t.success ∧
      (pd.set_default_params a b c set_format).2.diff_dst_pd_
        = (set_format pd.diff_dst_pd_ pd.src_format).2) ∧
    (pd.weights_pd_.format = memory_format_t.any →
      (set_format pd.weights_pd_ (pd.wei_format a b c)).1 = status_t.success ∧
      (pd.set_default_params a b c set_format).2.weights_pd_
        = (set_format pd.weights_pd_ (pd.wei_format a b c)).2) := by
  simp only [bwd_data_pd_t.set_default_params] at h ⊢
  split_ifs at h ⊢ <;> simp_all [bwd_data_pd_t.src_format, bwd_data_pd_t.wei_format,
    bwd_data_pd_t.ndims]

/-- Backward weights: a memory descriptor whose format is not `any` is left as
it is, and the operator descriptor and base-class queries always are. -/
theorem bwd_weights_set_default_params_keeps
    (set_format : memory_desc_t → memory_format_t → status_t × memory_desc_t)
    (pd : bwd_weights_pd_t) :
    (pd.src_pd_.format ≠ memory_format_t.any →
      (pd.set_default_params set_format).2.src_pd_ = pd.src_pd_) ∧
    (pd.diff_weights_pd_.format ≠ memory_format_t.any →
      (pd.set_default_params set_format).2.diff_weights_pd_ = pd.diff_weights_pd_) ∧
    (pd.diff_dst_pd_.format ≠ memory_format_t.any →
      (pd.set_default_params set_format).2.diff_dst_pd_ = pd.diff_dst_pd_) ∧
    (pd.set_default_params set_format).2.desc = pd.desc ∧
    (pd.set_default_params set_format).2.has_zero_dim_memory = pd.has_zero_dim_memory ∧
    (pd.set_default_params set_format).2.with_groups = pd.with_groups := by
  simp only [bwd_weights_pd_t.set_default_params]
  split_ifs <;> simp_all

/-- Backward weights: when `set_default_params` returns `success`, every
descriptor that had format `any` is what a successful `set_format` with the
default format left. -/
theorem bwd_weights_set_default_params_sets
    (set_format : memory_desc_t → memory_format_t → status_t × memory_desc_t)
    (pd : bwd_weights_pd_t)
    (h : (pd.set_default_params set_format).1 = status_t.success) :
    (pd.src_pd_.format = memory_format_t.any →
      (set_format pd.src_pd_ pd.src_format).1 = status_t.success ∧
      (pd.set_default_params set_format).2.src_pd_
        = (set_format pd.src_pd_ pd.src_format).2) ∧
    (pd.diff_weights_pd_.format = memory_format_t.any →
      (set_format pd.diff_weights_pd_ pd.wei_format).1 = status_t.success ∧
      (pd.set_default_params set_format).2.diff_weights_pd_
        = (set_format pd.diff_weights_pd_ pd.wei_format).2) ∧
    (pd.diff_dst_pd_.format = memory_format_t.any →
      (set_format pd.diff_dst_pd_ pd.src_format).1 = status_t.success ∧
      (pd.set_default_params set_format).2.diff_dst_pd_
        = (set_format pd.diff_dst_pd_ pd.src_format).2) := by
  simp only [bwd_weights_pd_t.set_default_params] at h ⊢
  split_ifs at h ⊢ <;> simp_all [bwd_weights_pd_t.src_format, bwd_weights_pd_t.wei_format,
    bwd_weights_pd_t.ndims]

/-! ## Claims on channel iterations and the worker count -/

/-- C14, as stated, fails: a valid job configuration with three channel
blocks buffered two at a time plans one channel iteration, and `1 * 2` is
not `3`, in the forward and in the backward-data constructor alike. -/
theorem channel_iters_skip_blocks :
    jcp_odd_blocks.valid ∧
    fwd_step jcp_odd_blocks = 2 ∧ fwd_oc_iters jcp_odd_blocks = 1 ∧
    fwd_oc_iters jcp_odd_blocks * fwd_step jcp_odd_blocks ≠ jcp_odd_blocks.nb_oc ∧
    bwd_data_ic_iters jcp_odd_blocks = 1 ∧
    bwd_data_ic_iters jcp_odd_blocks * jcp_odd_blocks.ic_buffs ≠ jcp_odd_blocks.nb_ic := by
  decide

/-- C14, amended: for a job configuration that satisfies the data-model
invariant, with `step = oc_buffs` when there is no dilation and `1`
otherwise, `oc_iters = nb_oc / step` with `step` positive, and
`oc_iters * step = nb_oc` exactly when `step` divides `nb_oc`; in the
backward-data constructor `ic_iters * ic_buffs = nb_ic` exactly when
`ic_buffs` divides `nb_ic`. -/
theorem channel_iters_exact_iff (j : jit_conv_conf_t) (hv : j.valid) :
    0 < fwd_step j ∧ fwd_oc_iters j = j.nb_oc / fwd_step j ∧
    (j.dilate_w = 0 → fwd_step j = j.oc_buffs) ∧ (j.dilate_w ≠ 0 → fwd_step j = 1) ∧
    (fwd_oc_iters j * fwd_step j = j.nb_oc ↔ fwd_step j ∣ j.nb_oc) ∧
    (bwd_data_ic_iters j * j.ic_buffs = j.nb_ic ↔ j.ic_buffs ∣ j.nb_ic) := by
  obtain ⟨_, _, _, _, _, _, _, hoc, _, _⟩ := hv
  have hstep : fwd_oc_iters j = j.nb_oc / fwd_step j := rfl
  refine ⟨?_, hstep, ?_, ?_, ?_, ?_⟩
  · by_cases hd : j.dilate_w = 0
    · simp [fwd_step, hd, hoc]
    · simp [fwd_step, hd]
  · intro hd
    simp [fwd_step, hd]
  · intro hd
    simp [fwd_step, hd]
  · rw [hstep]
    constructor
    · intro h
      exact Dvd.intro_left _ h
    · intro h
      exact Nat.div_mul_cancel h
  · show j.nb_ic / j.ic_buffs * j.ic_buffs = j.nb_ic ↔ j.ic_buffs ∣ j.nb_ic
    constructor
    · intro h
      exact Dvd.intro_left _ h
    · intro h
      exact Nat.div_mul_cancel h

theorem channel_iters_exact_iff_witness :
    fwd_oc_iters jcp_example * fwd_step jcp_example = jcp_example.nb_oc ∧
    bwd_data_ic_iters jcp_example * jcp_example.ic_buffs = jcp_example.nb_ic :=
  ⟨(channel_iters_exact_iff jcp_example (by decide)).2.2.2.2.1.mpr (by decide),
   (channel_iters_exact_iff jcp_example (by decide)).2.2.2.2.2.mpr (by decide)⟩

/-- C15 at an ambient maximum of one thread: the worker count is `1 / 2 = 0`,
so `params_` has no entry and the parallel region of that many workers plans
no chunk, although the work amount is `48`. -/
theorem planning_nthr_single_thread :
    planning_nthr 1 = 0 ∧ ¬ 1 ≤ planning_nthr 1 ∧
    planned_params (fun ithr => fwd_plan jcp_example (planning_nthr 1) ithr 48)
      (planning_nthr 1) = [] ∧
    all_chunks (fun ithr => fwd_plan jcp_example (planning_nthr 1) ithr 48)
      (planning_nthr 1) = [] ∧
    all_chunks (fun ithr => bwd_data_plan jcp_example (planning_nthr 1) ithr 48)
      (planning_nthr 1) = [] ∧
    fwd_work_amount jcp_example = 48 ∧ bwd_data_work_amount jcp_example = 48 := by
  decide

/-! ## Claims on execution and default layouts -/

theorem set_format_by_rank_sets : set_format_sets set_format_by_rank := by
  intro md fmt h
  by_cases hr : fmt.rank = some md.ndims
  · simp [set_format_by_rank, hr]
  · simp [set_format_by_rank, hr] at h

/-- After a successful backward-data `init` the propagation kind of the
descriptor the primitive keeps is `backward_data`. -/
theorem bwd_data_pd_init_success_prop_kind (a b c : data_type_t)
    (set_format : memory_desc_t → memory_format_t → status_t × memory_desc_t)
    (init_conf : bwd_data_pd_t → status_t) (pd : bwd_data_pd_t)
    (h : (bwd_data_pd_init a b c set_format init_conf pd).1 = status_t.success) :
    (bwd_data_pd_init a b c set_format init_conf pd).2.desc.prop_kind
      = prop_kind_t.backward_data := by
  obtain ⟨f1, _, _⟩ := bwd_data_set_default_params_frame a b c set_format pd
  have heq := bwd_data_pd_init_eq a b c set_format init_conf pd
  by_cases hrej : (pd.set_default_params a b c set_format).1 ≠ status_t.success
      ∨ bwd_data_rejected a b c pd
  · rw [if_pos hrej] at heq
    rw [heq] at h
    simp at h
  · rw [if_neg hrej] at heq
    rw [heq]
    show (pd.set_default_params a b c set_format).2.desc.prop_kind = prop_kind_t.backward_data
    rw [f1]
    simp only [bwd_data_rejected, not_or, ne_eq, not_not] at hrej
    exact hrej.2.1

/-- C17: for a backward-data descriptor whose `init` returned `success`,
`execute` does not reach the `invalid prop_kind` assertion: it calls the 2-D
path exactly when `ndims = 4` and the volumetric path otherwise, then sets the
event to ready. The forward `execute` calls the 2-D path exactly when
`ndims = 4` and the volumetric path otherwise, then sets the event to ready. -/
theorem execute_dispatch (a b c : data_type_t)
    (set_format : memory_desc_t → memory_format_t → status_t × memory_desc_t)
    (init_conf : bwd_data_pd_t → status_t) (pd : bwd_data_pd_t) (fwd_conf_ : fwd_pd_t) :
    ((bwd_data_pd_init a b c set_format init_conf pd).1 = status_t.success →
      exec_call_t.assert_invalid_prop_kind
        ∉ bwd_data_execute (bwd_data_pd_init a b c set_format init_conf pd).2 ∧
      ((bwd_data_pd_init a b c set_format init_conf pd).2.ndims = 4 →
        bwd_data_execute (bwd_data_pd_init a b c set_format init_conf pd).2
          = [exec_call_t.execute_backward_data, exec_call_t.set_state_ready]) ∧
      ((bwd_data_pd_init a b c set_format init_conf pd).2.ndims ≠ 4 →
        bwd_data_execute (bwd_data_pd_init a b c set_format init_conf pd).2
          = [exec_call_t.execute_backward_data_3d, exec_call_t.set_state_ready])) ∧
    (fwd_conf_.ndims = 4 →
      fwd_execute fwd_conf_ = [exec_call_t.execute_forward, exec_call_t.set_state_ready]) ∧
    (fwd_conf_.ndims ≠ 4 →
      fwd_execute fwd_conf_ = [exec_call_t.execute_forward_3d, exec_call_t.set_state_ready]) := by
  refine ⟨?_, ?_, ?_⟩
  · intro h
    have hp := bwd_data_pd_init_success_prop_kind a b c set_format init_conf pd h
    generalize (bwd_data_pd_init a b c set_format init_conf pd).2 = conf_ at hp ⊢
    have hex : bwd_data_execute conf_
        = [if conf_.ndims = 4 then exec_call_t.execute_backward_data
           else exec_call_t.execute_backward_data_3d, exec_call_t.set_state_ready] := by
      simp only [bwd_data_execute, hp]
      rfl
    rw [hex]
    by_cases hn : conf_.ndims = 4
    · simp [hn]
    · simp [hn]
  · intro hn
    simp [fwd_execute, hn]
  · intro hn
    simp [fwd_execute, hn]

theorem execute_dispatch_witness :
    (exec_call_t.assert_invalid_prop_kind
        ∉ bwd_data_execute (bwd_data_pd_init data_type_t.f32 data_type_t.f32 data_type_t.f32
            set_format_by_rank (fun _ => status_t.success) bwd_data_f32_4d).2 ∧
      ((bwd_data_pd_init data_type_t.f32 data_type_t.f32 data_type_t.f32
            set_format_by_rank (fun _ => status_t.success) bwd_data_f32_4d).2.ndims = 4 →
        bwd_data_execute (bwd_data_pd_init data_type_t.f32 data_type_t.f32 data_type_t.f32
            set_format_by_rank (fun _ => status_t.success) bwd_data_f32_4d).2
          = [exec_call_t.execute_backward_data, exec_call_t.set_state_ready]) ∧
      ((bwd_data_pd_init data_type_t.f32 data_type_t.f32 data_type_t.f32
            set_format_by_rank (fun _ => status_t.success) bwd_data_f32_4d).2.ndims ≠ 4 →
        bwd_data_execute (bwd_data_pd_init data_type_t.f32 data_type_t.f32 data_type_t.f32
            set_format_by_rank (fun _ => status_t.success) bwd_data_f32_4d).2
          = [exec_call_t.execute_backward_data_3d, exec_call_t.set_state_ready])) ∧
    fwd_execute fwd_f32_4d = [exec_call_t.execute_forward, exec_call_t.set_state_ready] :=
  ⟨(execute_dispatch data_type_t.f32 data_type_t.f32 data_type_t.f32 set_format_by_rank
      (fun _ => status_t.success) bwd_data_f32_4d fwd_f32_4d).1 (by decide),
   (execute_dispatch data_type_t.f32 data_type_t.f32 data_type_t.f32 set_format_by_rank
      (fun _ => status_t.success) bwd_data_f32_4d fwd_f32_4d).2.1 (by decide)⟩

/-- C18: in the backward-data and in the backward-weights descriptor,
`set_default_params` leaves every memory descriptor whose format is not `any`
unchanged, whatever it returns; when it returns `success`, each descriptor
that had format `any` is what `set_format` made of it when called with
`src_format()` (data tensors) or `wei_format()` (weights), and so, `set_format`
giving the format it is asked for whenever it succeeds, has that format. -/
theorem set_default_params_changes_any_only (a b c : data_type_t)
    (set_format : memory_desc_t → memory_format_t → status_t × memory_desc_t)
    (dpd : bwd_data_pd_t) (wpd : bwd_weights_pd_t) :
    ((dpd.diff_src_pd_.format ≠ memory_format_t.any →
        (dpd.set_default_params a b c set_format).2.diff_src_pd_ = dpd.diff_src_pd_) ∧
      (dpd.diff_dst_pd_.format ≠ memory_format_t.any →
        (dpd.set_default_params a b c set_format).2.diff_dst_pd_ = dpd.diff_dst_pd_) ∧
      (dpd.weights_pd_.format ≠ memory_format_t.any →
        (dpd.set_default_params a b c set_format).2.weights_pd_ = dpd.weights_pd_)) ∧
    ((wpd.src_pd_.format ≠ memory_format_t.any →
        (wpd.set_default_params set_format).2.src_pd_ = wpd.src_pd_) ∧
      (wpd.diff_weights_pd_.format ≠ memory_format_t.any →
        (wpd.set_default_params set_format).2.diff_weights_pd_ = wpd.diff_weights_pd_) ∧
      (wpd.diff_dst_pd_.format ≠ memory_format_t.any →
        (wpd.set_default_params set_format).2.diff_dst_pd_ = wpd.diff_dst_pd_)) ∧
    ((dpd.set_default_params a b c set_format).1 = status_t.success →
      (dpd.diff_src_pd_.format = memory_format_t.any →
        (dpd.set_default_params a b c set_format).2.diff_src_pd_
          = (set_format dpd.diff_src_pd_ dpd.src_format).2) ∧
      (dpd.diff_dst_pd_.format = memory_format_t.any →
        (dpd.set_default_params a b c set_format).2.diff_dst_pd_
          = (set_format dpd.diff_dst_pd_ dpd.src_format).2) ∧
      (dpd.weights_pd_.format = memory_format_t.any →
        (dpd.set_default_params a b c set_format).2.weights_pd_
          = (set_format dpd.weights_pd_ (dpd.wei_format a b c)).2)) ∧
    ((wpd.set_default_params set_format).1 = status_t.success →
      (wpd.src_pd_.format = memory_format_t.any →
        (wpd.set_default_params set_format).2.src_pd_
          = (set_format wpd.src_pd_ wpd.src_format).2) ∧
      (wpd.diff_weights_pd_.format = memory_format_t.any →
        (wpd.set_default_params set_format).2.diff_weights_pd_
          = (set_format wpd.diff_weights_pd_ wpd.wei_format).2) ∧
      (wpd.diff_dst_pd_.format = memory_format_t.any →
        (wpd.set_default_params set_format).2.diff_dst_pd_
          = (set_format wpd.diff_dst_pd_ wpd.src_format).2)) ∧
    (set_format_sets set_format →
      (dpd.set_default_params a b c set_format).1 = status_t.success →
      (dpd.diff_src_pd_.format = memory_format_t.any →
        (dpd.set_default_params a b c set_format).2.diff_src_pd_.format = dpd.src_format) ∧
      (dpd.diff_dst_pd_.format = memory_format_t.any →
        (dpd.set_default_params a b c set_format).2.diff_dst_pd_.format = dpd.src_format) ∧
      (dpd.weights_pd_.format = memory_format_t.any →
        (dpd.set_default_params a b c set_format).2.weights_pd_.format
          = dpd.wei_format a b c)) ∧
    (set_format_sets set_format →
      (wpd.set_default_params set_format).1 = status_t.success →
      (wpd.src_pd_.format = memory_format_t.any →
        (wpd.set_default_params set_format).2.src_pd_.format = wpd.src_format) ∧
      (wpd.diff_weights_pd_.format = memory_format_t.any →
        (wpd.set_default_params set_format).2.diff_weights_pd_.format = wpd.wei_format) ∧
      (wpd.diff_dst_pd_.format = memory_format_t.any →
        (wpd.set_default_params set_format).2.diff_dst_pd_.format = wpd.src_format)) := by
  obtain ⟨k1, k2, k3⟩ := bwd_data_set_default_params_keeps a b c set_format dpd
  obtain ⟨w1, w2, w3, _⟩ := bwd_weights_set_default_params_keeps set_format wpd
  refine ⟨⟨k1, k2, k3⟩, ⟨w1, w2, w3⟩, ?_, ?_, ?_, ?_⟩
  · intro h
    obtain ⟨s1, s2, s3⟩ := bwd_data_set_default_params_sets a b c set_format dpd h
    exact ⟨fun h' => (s1 h').2, fun h' => (s2 h').2, fun h' => (s3 h').2⟩
  · intro h
    obtain ⟨s1, s2, s3⟩ := bwd_weights_set_default_params_sets set_format wpd h
    exact ⟨fun h' => (s1 h').2, fun h' => (s2 h').2, fun h' => (s3 h').2⟩
  · intro hsf h
    obtain ⟨s1, s2, s3⟩ := bwd_data_set_default_params_sets a b c set_format dpd h
    refine ⟨fun h' => ?_, fun h' => ?_, fun h' => ?_⟩
    · rw [(s1 h').2]
      exact hsf _ _ (s1 h').1
    · rw [(s2 h').2]
      exact hsf _ _ (s2 h').1
    · rw [(s3 h').2]
      exact hsf _ _ (s3 h').1
  · intro hsf h
    obtain ⟨s1, s2, s3⟩ := bwd_weights_set_default_params_sets set_format wpd h
    refine ⟨fun h' => ?_, fun h' => ?_, fun h' => ?_⟩
    · rw [(s1 h').2]
      exact hsf _ _ (s1 h').1
    · rw [(s2 h').2]
      exact hsf _ _ (s2 h').1
    · rw [(s3 h').2]
      exact hsf _ _ (s3 h').1

theorem set_default_params_changes_any_only_witness :
    (bwd_weights_f32_4d.set_default_params set_format_by_rank).2.diff_weights_pd_
      = bwd_weights_f32_4d.diff_weights_pd_ ∧
    (bwd_data_f32_4d.set_default_params data_type_t.f32 data_type_t.f32 data_type_t.f32
      set_format_by_rank).2.weights_pd_.format = memory_format_t.OIhw16o16i ∧
    (bwd_data_f32_4d.set_default_params data_type_t.f32 data_type_t.f32 data_type_t.f32
      set_format_by_rank).2.diff_src_pd_.format = memory_format_t.nChw16c ∧
    (bwd_weights_f32_4d.set_default_params set_format_by_rank).2.src_pd_.format
      = memory_format_t.nChw16c :=
  ⟨(set_default_params_changes_any_only data_type_t.f32 data_type_t.f32 data_type_t.f32
      set_format_by_rank bwd_data_f32_4d bwd_weights_f32_4d).2.1.2.1 (by decide),
   ((set_default_params_changes_any_only data_type_t.f32 data_type_t.f32 data_type_t.f32
      set_format_by_rank bwd_data_f32_4d bwd_weights_f32_4d).2.2.2.2.1
      set_format_by_rank_sets (by decide)).2.2 (by decide),
   ((set_default_params_changes_any_only data_type_t.f32 data_type_t.f32 data_type_t.f32
      set_format_by_rank bwd_data_f32_4d bwd_weights_f32_4d).2.2.2.2.1
      set_format_by_rank_sets (by decide)).1 (by decide),
   ((set_default_params_changes_any_only data_type_t.f32 data_type_t.f32 data_type_t.f32
      set_format_by_rank bwd_data_f32_4d bwd_weights_f32_4d).2.2.2.2.2
      set_format_by_rank_sets (by decide)).1 (by decide)⟩

end SparseTrain
